import Mathlib

/-!
# Verification of the v02 video-splitter bot core

Shallow embedding of the repository's core logic:

* `video_processor.py` — `VideoProcessor.split_video` (the Segmentation Engine),
* `bot_handler.py` — `TelegramVideoBot` (surface A, the 20 MB standard handler),
* `large_file_handler.py` — `LargeFileHandler` (surface B, the MTProto handler).

The chat transport (python-telegram-bot / pyrogram), the filesystem and the
external ffmpeg process are external collaborators; they are modelled by
explicit environment records (`ProcEnv`, `PipeEnv`) whose fields are the
observable outcomes of each external call.  Python strings are modelled as
Lean `String` (a list of code points, matching Python's `str` semantics for
the ASCII data handled here); machine integers do not overflow in any code
path modelled (Python ints are unbounded), so `Nat`/`Int` are used directly.
-/

namespace V02

/-! ## Python string primitives

`charsLe` is code-point lexicographic comparison of character lists, the
order Python's `sorted` uses on `str` values.  `pyStrip` models `str.strip()`
(drop leading and trailing whitespace).  `pyInt` models `int(s)` on ASCII
input: optional surrounding whitespace, an optional sign, then a nonempty
digit run in which single underscores may appear between digits.
(Python additionally accepts non-ASCII digits and exotic whitespace; the
bot's inputs of interest are ASCII.) -/

def charsLe : List Char → List Char → Bool
  | [], _ => true
  | _ :: _, [] => false
  | a :: as, b :: bs =>
    if a.toNat < b.toNat then true
    else if b.toNat < a.toNat then false
    else charsLe as bs

def strLe (a b : String) : Bool := charsLe a.data b.data

/-- Insert into a `strLe`-sorted list, keeping it sorted (helper for
`pysorted`). -/
def insertSorted (x : String) : List String → List String
  | [] => [x]
  | y :: ys => if strLe x y then x :: y :: ys else y :: insertSorted x ys

/-- Model of Python's `sorted` on a list of strings (insertion sort; Python's
sort is stable, and the directory listings sorted here contain no duplicate
names, so any sort computing the same order is a faithful model). -/
def pysorted (l : List String) : List String := l.foldr insertSorted []

def stripChars (l : List Char) : List Char :=
  ((l.dropWhile Char.isWhitespace).reverse.dropWhile Char.isWhitespace).reverse

def pyStrip (s : String) : String := String.mk (stripChars s.data)

def digitVal (c : Char) : Nat := c.toNat - 48

/-- Digit-run scanner of `int()`: at least one digit already seen, single
underscores allowed only between digits. -/
def pyUGo : List Char → Nat → Option Nat
  | [], acc => some acc
  | [c], acc =>
    if c.isDigit then some (10 * acc + digitVal c) else none
  | c :: d :: rest, acc =>
    if c.isDigit then pyUGo (d :: rest) (10 * acc + digitVal c)
    else if c = '_' then
      if d.isDigit then pyUGo rest (10 * acc + digitVal d) else none
    else none

def pyUIntParse : List Char → Option Nat
  | [] => none
  | c :: rest => if c.isDigit then pyUGo rest (digitVal c) else none

/-- Model of Python `int(s)` (ASCII fragment). -/
def pyInt (s : String) : Option Int :=
  match (pyStrip s).data with
  | [] => none
  | c :: rest =>
    if c = '+' then (pyUIntParse rest).map Int.ofNat
    else if c = '-' then (pyUIntParse rest).map (fun n => -(n : Int))
    else (pyUIntParse (c :: rest)).map Int.ofNat

/-- The literal decimal string of `n` (big-endian digits, no sign). -/
def digitChar (d : Nat) : Char :=
  match d with
  | 0 => '0' | 1 => '1' | 2 => '2' | 3 => '3' | 4 => '4'
  | 5 => '5' | 6 => '6' | 7 => '7' | 8 => '8' | _ => '9'

def decChars (n : Nat) : List Char :=
  if _h : n < 10 then [digitChar n]
  else decChars (n / 10) ++ [digitChar (n % 10)]
termination_by n
decreasing_by
  exact Nat.div_lt_self (by omega) (by omega)

def decimalRepr (n : Nat) : String := String.mk (decChars n)

/-- Python's `len(s)` / `s[:n]` (character counts, as in Python). -/
def pyLen (s : String) : Nat := s.data.length

def pySlice (s : String) (n : Nat) : String := String.mk (s.data.take n)

/-! ## Segmentation Engine (`video_processor.py`, `VideoProcessor.split_video`)

The external ffmpeg invocation and the filesystem are modelled by `ProcEnv`:
the process exit status and stderr text, the output-directory listing
(`os.listdir`, unsorted), and the existence/size of files by path.  The
source builds the command with output pattern `clip_%03d.mp4` (3-digit
zero-padded names), runs it, and on exit code 0 reconciles the output set by
listing the directory in sorted order, keeping names of the form
`clip_*.mp4` whose file exists with size > 0; an empty reconciled set is an
error even on exit code 0.  Every raised error is re-wrapped by the outer
handler as `"Failed to process video: " ++ msg`. -/

structure ProcEnv where
  returncode : Int
  stderr : String
  listing : List String
  fileExists : String → Bool
  fileSize : String → Nat

/-- Python `str.startswith` / `str.endswith` (prefix/suffix of the code-point
sequence). -/
def pyStartsWith (s pat : String) : Bool := pat.data.isPrefixOf s.data

def pyEndsWith (s pat : String) : Bool := pat.data.isSuffixOf s.data

/-- The filter applied to each directory entry in the reconciliation loop of
`split_video` (name pattern, file existence, nonzero size). -/
def clip_pred (env : ProcEnv) (output_dir : String) (fn : String) : Bool :=
  pyStartsWith fn "clip_" && pyEndsWith fn ".mp4"
    && env.fileExists (output_dir ++ "/" ++ fn)
    && decide (0 < env.fileSize (output_dir ++ "/" ++ fn))

/-- The filtered, sorted clip file names discovered by `split_video`. -/
def clip_names (env : ProcEnv) (output_dir : String) : List String :=
  (pysorted env.listing).filter (clip_pred env output_dir)

def ffmpegFailMsg (env : ProcEnv) : String :=
  "Failed to process video: Video processing failed: "
    ++ (if env.stderr = "" then "Unknown FFmpeg error" else env.stderr)

def noClipsMsg : String :=
  "Failed to process video: No clips were created. The video might be shorter than the segment duration."

/-- `VideoProcessor.split_video(input_path, output_dir, segment_duration)`.
The input path and segment duration are passed to the external tool (part of
`ProcEnv`'s outcome); the reconciliation depends on the directory state. -/
def split_video (env : ProcEnv) (_input_path output_dir : String)
    (_segment_duration : Int) : Except String (List String) :=
  if env.returncode ≠ 0 then
    .error (ffmpegFailMsg env)
  else
    let clip_files := (clip_names env output_dir).map (fun fn => output_dir ++ "/" ++ fn)
    if clip_files = [] then .error noClipsMsg
    else .ok clip_files

/-- Segment index encoded in a clip file name `clip_<digits>.mp4` (digit
characters between the `clip_` stem and the `.mp4` suffix, read as a decimal
number). -/
def clipNameIdx (fn : String) : Nat :=
  ((fn.data.drop 5).dropLast.dropLast.dropLast.dropLast).foldl
    (fun a c => 10 * a + digitVal c) 0

/-- Final path component (the part after the last `/`). -/
def baseName (p : String) : String :=
  String.mk ((p.data.reverse.takeWhile (fun c => c ≠ '/')).reverse)

/-- Segment index of a produced clip path (index of its base name). -/
def clipPathIdx (p : String) : Nat := clipNameIdx (baseName p)

/-- A file name is exactly `clip_` ++ three decimal digits ++ `.mp4` (the
shape the source's `clip_%03d.mp4` pattern produces while the segment count
stays within the zero-padding width). -/
def isPad3ClipName (fn : String) : Prop :=
  ∃ c2 c1 c0 : Char,
    fn.data = ['c', 'l', 'i', 'p', '_', c2, c1, c0, '.', 'm', 'p', '4']
    ∧ (48 ≤ c2.toNat ∧ c2.toNat ≤ 57)
    ∧ (48 ≤ c1.toNat ∧ c1.toNat ≤ 57)
    ∧ (48 ≤ c0.toNat ∧ c0.toNat ≤ 57)

/-! ## Conversation state (both handler surfaces)

Each handler keeps `self.user_states : Dict[int, Dict[str, Any]]`.  A user's
dict can hold a `"video_message"` key (the stored artifact reference; here an
opaque `Nat` id) and a `"state"` key (one of the literal strings
`"video_uploaded"`, `"waiting_duration"`, `"idle"`).  `Option` models key
absence.  Events are keyed per user and every handler touches only the
sending user's entry, so the store is modelled per user as
`Option Session` (`none` = user not yet in the dict). -/

inductive Phase where
  | video_uploaded
  | waiting_duration
  | idle
deriving DecidableEq

structure Session where
  video_message : Option Nat
  state : Option Phase
deriving DecidableEq

/-- Inbound events surfaced by the transport layer.  `video` carries the
artifact reference and `file_size` in bytes.  Commands are dispatched before
free text by the transport filters, so `/clip` and plain text are distinct
events. -/
inductive Event where
  | start
  | clipCmd
  | video (ref : Nat) (sizeBytes : Nat)
  | callbackStartClip
  | callbackAbout
  | callbackSettings
  | text (t : String)
deriving DecidableEq

/-- Outbound messages.  Payload-free constructors stand for the fixed
template texts of the source; texts the claims reason about (duration
validation errors, processing-failure edits) carry the literal string. -/
inductive Reply where
  | welcome
  | fileTooLarge
  | videoReceived (ref : Nat)
  | askDuration
  | needVideoClip
  | needVideoCb
  | needVideoStart
  | dontUnderstand (s : String)
  | validationError (s : String)
  | statusInitial
  | statusEdit (s : String)
  | videoClip (path : String) (i total : Nat) (dur : Int)
  | uploadFailed (i : Nat)
  | aboutInfo
  | settingsInfo
deriving DecidableEq

/-- One Segmentation Engine invocation as issued by the pipeline. -/
structure SegRequest where
  input_path : String
  output_dir : String
  segment_duration : Int
deriving DecidableEq

/-- Environment of one `_process_video` run: the outcomes of the external
calls it makes.  `getFileFail` is the `video.get_file()` step (surface A
only, performed before the temp file exists); `downloadFail` is the download
to the temp file; `proc` drives the ffmpeg run; `postSplitEditOk` is the
status-message edit issued right after a successful split (a transport send
that can raise); `sendOk i` is the outcome of delivering clip `i` (1-based);
`cleanupExists`/`unlinkOk` describe the filesystem at cleanup time. -/
structure PipeEnv where
  tempPath : String
  getFileFail : Option String
  downloadFail : Option String
  proc : ProcEnv
  postSplitEditOk : Option String
  sendOk : Nat → Bool
  cleanupExists : String → Bool
  unlinkOk : String → Bool

/-- Result of one `_process_video` run: the user's session entry afterwards,
the outbound messages in order, the engine invocations issued, and the files
actually deleted by cleanup. -/
structure RunResult where
  session : Session
  replies : List Reply
  engineCalls : List SegRequest
  deleted : List String
deriving DecidableEq

/-- `_cleanup_files`: best-effort deletion.  Each `os.unlink` sits in its own
`try/except`, so the function never raises; it returns the files actually
removed (those that existed and whose unlink succeeded). -/
def cleanup_files (env : PipeEnv) (paths : List String) : List String :=
  paths.filter (fun p => env.cleanupExists p && env.unlinkOk p)

def output_dir_of (uid : Nat) : String := "clips/user_" ++ toString uid

/-- Progress/terminal status texts of surface A (`bot_handler.py`). -/
def statusDownloadDoneA : String :=
  "🔄 **Processing your video...**\n\n✅ Download complete\n⏳ Splitting video..."

def statusSplitDoneA : String :=
  "🔄 **Processing your video...**\n\n✅ Download complete\n✅ Video split complete\n⏳ Uploading clips..."

def statusProgressA (i total : Nat) : String :=
  "🔄 **Processing your video...**\n\n✅ Download complete\n✅ Video split complete\n⏳ Uploading clips... ("
    ++ toString i ++ "/" ++ toString total ++ ")"

def statusCompleteA (total : Nat) : String :=
  "✅ **Processing Complete!**\n\n📹 " ++ toString total ++ " clips sent successfully!"

/-- Surface A failure display: `str(e)` is interpolated unmodified. -/
def failEditA (e : String) : String :=
  "❌ **Processing Failed!**\n\nError: " ++ e

/-- Progress/terminal status texts of surface B (`large_file_handler.py`). -/
def statusDownloadDoneB : String :=
  "🔄 **Processing Yᴏᴜʀ Vɪᴅᴇᴏ...**\n\n✅ **Download Cᴏᴍᴘʟᴇᴛᴇ**\n⏳ **Splitting Vɪᴅᴇᴏ...**"

def statusSplitDoneB : String :=
  "🔄 **Processing Yᴏᴜʀ Vɪᴅᴇᴏ...**\n\n✅ **Download Cᴏᴍᴘʟᴇᴛᴇ**\n✅ **Video Sᴘʟɪᴛ Cᴏᴍᴘʟᴇᴛᴇ**\n⏳ **Uploading Cʟɪᴘs...**"

def statusProgressB (i total : Nat) : String :=
  "🔄 **Processing Yᴏᴜʀ Vɪᴅᴇᴏ...**\n\n✅ **Download Cᴏᴍᴘʟᴇᴛᴇ**\n✅ **Video Sᴘʟɪᴛ Cᴏᴍᴘʟᴇᴛᴇ**\n⏳ **Uploading Cʟɪᴘs...** ("
    ++ toString i ++ "/" ++ toString total ++ ")"

def statusCompleteB (total : Nat) : String :=
  "✅ **Processing ᴄᴏᴍᴘʟᴇᴛᴇ!**\n\n📹 **" ++ toString total
    ++ " Clips ꜱᴇɴᴛ ꜱᴜᴄᴄᴇꜱꜱғᴜʟʟʏ!**\n\n🎬 **Thank ʏᴏᴜ ғᴏʀ ᴜsɪɴɢ Video Sᴘʟɪᴛᴛᴇʀ Bᴏᴛ!**"

/-- Surface B bounds the displayed error text:
`str(e)[:200] + "..." if len(str(e)) > 200 else str(e)`. -/
def errDisplayB (e : String) : String :=
  if 200 < pyLen e then pySlice e 200 ++ "..." else e

def failEditB (e : String) : String :=
  "❌ **Processing Failed!**\n\nError: " ++ errDisplayB e

/-- The upload loop (shared shape of both surfaces): clip `i` of `total`
either reaches the user (video message plus a progress edit) or its failure
is reported inline and the loop continues. -/
def uploadReplies (sendOk : Nat → Bool) (progressText : Nat → Nat → String)
    (dur : Int) (total : Nat) : Nat → List String → List Reply
  | _, [] => []
  | i, c :: rest =>
    (if sendOk i
     then [Reply.videoClip c i total dur, Reply.statusEdit (progressText i total)]
     else [Reply.uploadFailed i])
      ++ uploadReplies sendOk progressText dur total (i + 1) rest

/-! ## The processing pipeline (`_process_video`, both surfaces)

The run is `Except Unit RunResult`: `.error ()` is the uncaught `KeyError`
raised when the user's dict has no `"video_message"` entry (that lookup is
the first statement, outside the `try`).  Every other modelled outcome is
caught by the single `try/except` of the pipeline.  On the success path the
user's entry is replaced by `{"state": "idle"}`; the `except` branch edits
the status message with the error and cleans up only the temp file, leaving
the session entry untouched. -/

def process_video_A (env : PipeEnv) (uid : Nat) (sess : Session)
    (duration : Int) : Except Unit RunResult :=
  match sess.video_message with
  | none => .error ()
  | some _ =>
    match env.getFileFail with
    | some e =>
      -- `video.get_file()` raised before the temp file existed:
      -- `'temp_path' in locals()` is false, nothing is cleaned up.
      .ok { session := sess
            replies := [.statusInitial, .statusEdit (failEditA e)]
            engineCalls := []
            deleted := [] }
    | none =>
      match env.downloadFail with
      | some e =>
        .ok { session := sess
              replies := [.statusInitial, .statusEdit (failEditA e)]
              engineCalls := []
              deleted := cleanup_files env [env.tempPath] }
      | none =>
        let req : SegRequest := ⟨env.tempPath, output_dir_of uid, duration⟩
        match split_video env.proc env.tempPath (output_dir_of uid) duration with
        | .error e =>
          .ok { session := sess
                replies := [.statusInitial, .statusEdit statusDownloadDoneA,
                            .statusEdit (failEditA e)]
                engineCalls := [req]
                deleted := cleanup_files env [env.tempPath] }
        | .ok clip_files =>
          match env.postSplitEditOk with
          | some e =>
            .ok { session := sess
                  replies := [.statusInitial, .statusEdit statusDownloadDoneA,
                              .statusEdit (failEditA e)]
                  engineCalls := [req]
                  deleted := cleanup_files env [env.tempPath] }
          | none =>
            .ok { session := ⟨none, some .idle⟩
                  replies := [.statusInitial, .statusEdit statusDownloadDoneA,
                              .statusEdit statusSplitDoneA]
                    ++ uploadReplies env.sendOk statusProgressA duration clip_files.length 1 clip_files
                    ++ [.statusEdit (statusCompleteA clip_files.length)]
                  engineCalls := [req]
                  deleted := cleanup_files env (env.tempPath :: clip_files) }

def process_video_B (env : PipeEnv) (uid : Nat) (sess : Session)
    (duration : Int) : Except Unit RunResult :=
  match sess.video_message with
  | none => .error ()
  | some _ =>
    -- Surface B creates the temp file first, then downloads into it; its
    -- failure cleanup additionally checks `temp_path` is truthy.
    let failDeleted := if env.tempPath = "" then [] else cleanup_files env [env.tempPath]
    match env.downloadFail with
    | some e =>
      .ok { session := sess
            replies := [.statusInitial, .statusEdit (failEditB e)]
            engineCalls := []
            deleted := failDeleted }
    | none =>
      let req : SegRequest := ⟨env.tempPath, output_dir_of uid, duration⟩
      match split_video env.proc env.tempPath (output_dir_of uid) duration with
      | .error e =>
        .ok { session := sess
              replies := [.statusInitial, .statusEdit statusDownloadDoneB,
                          .statusEdit (failEditB e)]
              engineCalls := [req]
              deleted := failDeleted }
      | .ok clip_files =>
        match env.postSplitEditOk with
        | some e =>
          .ok { session := sess
                replies := [.statusInitial, .statusEdit statusDownloadDoneB,
                            .statusEdit (failEditB e)]
                engineCalls := [req]
                deleted := failDeleted }
        | none =>
          .ok { session := ⟨none, some .idle⟩
                replies := [.statusInitial, .statusEdit statusDownloadDoneB,
                            .statusEdit statusSplitDoneB]
                  ++ uploadReplies env.sendOk statusProgressB duration clip_files.length 1 clip_files
                  ++ [.statusEdit (statusCompleteB clip_files.length)]
                engineCalls := [req]
                deleted := cleanup_files env (env.tempPath :: clip_files) }

/-- The run reached the success path (all fatal steps of surface A
succeeded). -/
def runSucceededA (env : PipeEnv) (uid : Nat) (duration : Int) : Prop :=
  env.getFileFail = none ∧ env.downloadFail = none
    ∧ (split_video env.proc env.tempPath (output_dir_of uid) duration).isOk
    ∧ env.postSplitEditOk = none

def runSucceededB (env : PipeEnv) (uid : Nat) (duration : Int) : Prop :=
  env.downloadFail = none
    ∧ (split_video env.proc env.tempPath (output_dir_of uid) duration).isOk
    ∧ env.postSplitEditOk = none

instance exceptDecEq {ε α : Type} [DecidableEq ε] [DecidableEq α] :
    DecidableEq (Except ε α) := fun x y =>
  match x, y with
  | .error a, .error b =>
    if h : a = b then isTrue (by rw [h])
    else isFalse (by intro hc; cases hc; exact h rfl)
  | .error _, .ok _ => isFalse (by intro hc; cases hc)
  | .ok _, .error _ => isFalse (by intro hc; cases hc)
  | .ok a, .ok b =>
    if h : a = b then isTrue (by rw [h])
    else isFalse (by intro hc; cases hc; exact h rfl)

instance decRunSucceededA (env : PipeEnv) (uid : Nat) (d : Int) :
    Decidable (runSucceededA env uid d) :=
  decidable_of_iff (env.getFileFail = none ∧ env.downloadFail = none
    ∧ (split_video env.proc env.tempPath (output_dir_of uid) d).isOk
    ∧ env.postSplitEditOk = none) Iff.rfl

instance decRunSucceededB (env : PipeEnv) (uid : Nat) (d : Int) :
    Decidable (runSucceededB env uid d) :=
  decidable_of_iff (env.downloadFail = none
    ∧ (split_video env.proc env.tempPath (output_dir_of uid) d).isOk
    ∧ env.postSplitEditOk = none) Iff.rfl

/-! ## Event handlers and the per-user step functions -/

/-- Per-event outcome: messages sent, engine invocations, files deleted. -/
structure Out where
  replies : List Reply
  engineCalls : List SegRequest
  deleted : List String
deriving DecidableEq

def Out.msgs (rs : List Reply) : Out := ⟨rs, [], []⟩

/-- Lift a pipeline run into a per-event step result. -/
def liftRun : Except Unit RunResult → Except Unit (Option Session × Out)
  | .error e => .error e
  | .ok r => .ok (some r.session, ⟨r.replies, r.engineCalls, r.deleted⟩)

def max_size_A : Nat := 20 * 1024 * 1024

/-- `TelegramVideoBot._handle_video`: reject above 20 MB (session untouched),
otherwise overwrite the user's entry with the new artifact and state
`"video_uploaded"`. -/
def handle_video_A (sess : Option Session) (ref sizeBytes : Nat) :
    Option Session × List Reply :=
  if max_size_A < sizeBytes then (sess, [.fileTooLarge])
  else (some ⟨some ref, some .video_uploaded⟩, [.videoReceived ref])

/-- `LargeFileHandler._handle_video`: no size check; overwrite the entry. -/
def handle_video_B (_sess : Option Session) (ref _sizeBytes : Nat) :
    Option Session × List Reply :=
  (some ⟨some ref, some .video_uploaded⟩, [.videoReceived ref])

/-- `TelegramVideoBot._ask_for_duration`: sets `"state"` to
`"waiting_duration"` only if the user already has an entry. -/
def ask_for_duration_A (sess : Option Session) : Option Session × List Reply :=
  match sess with
  | none => (none, [.askDuration])
  | some s => (some { s with state := some .waiting_duration }, [.askDuration])

/-- `LargeFileHandler._ask_for_duration_with_user_id`: creates an empty entry
if absent, then sets `"state"` to `"waiting_duration"` (preserving any stored
`"video_message"`). -/
def ask_for_duration_B (sess : Option Session) : Option Session × List Reply :=
  let s := sess.getD ⟨none, none⟩
  (some { s with state := some .waiting_duration }, [.askDuration])

/-- Guard common to `/clip` and the `start_clip` callback on both surfaces:
the user must have an entry holding a `"video_message"` key. -/
def hasVideo (sess : Option Session) : Bool :=
  match sess with
  | none => false
  | some s => s.video_message.isSome

def msgInvalidNumberA : String := "❌ Please enter a valid number for duration!"
def msgMustBePositiveA : String := "❌ Duration must be a positive number!"
def msgTooLongA : String := "❌ Duration too long! Maximum is 3600 seconds (1 hour)."
def msgDontUnderstandA : String := "❌ I don\x27t understand. Please send a video or use /start!"

def msgInvalidNumberB : String := "❌ **Please Eɴᴛᴇʀ ᴀ Vᴀʟɪᴅ Nᴜᴍʙᴇʀ ғᴏʀ Dᴜʀᴀᴛɪᴏɴ!**"
def msgMustBePositiveB : String := "❌ **Duration ᴍᴜsᴛ ʙᴇ ᴀ ᴘᴏsɪᴛɪᴠᴇ ɴᴜᴍʙᴇʀ!**"
def msgTooLongB : String := "❌ **Duration ᴛᴏᴏ ʟᴏɴɢ!** Mᴀxɪᴍᴜᴍ ɪs 3600 sᴇᴄᴏɴᴅs (1 ʜᴏᴜʀ)."
def msgDontUnderstandB : String := "❌ **I Dᴏɴ\x27ᴛ Uɴᴅᴇʀsᴛᴀɴᴅ.** Pʟᴇᴀsᴇ sᴇɴᴅ ᴀ ᴠɪᴅᴇᴏ ᴏʀ ᴜsᴇ /start!"

/-- `_handle_text`, shared shape of both surfaces: no entry → "send a video
first"; in `"waiting_duration"` parse `int(text.strip())`, validate the
range, and on success run the pipeline; any other state → "don't
understand".  The surface-specific pieces (message texts, pipeline) are
parameters. -/
def handle_text_gen
    (invalidMsg positiveMsg tooLongMsg dontUnderstandMsg : String)
    (pipeline : Session → Int → Except Unit RunResult)
    (sess : Option Session) (t : String) :
    Except Unit (Option Session × Out) :=
  match sess with
  | none => .ok (none, Out.msgs [.needVideoStart])
  | some s =>
    if s.state = some .waiting_duration then
      match pyInt t with
      | none => .ok (sess, Out.msgs [.validationError invalidMsg])
      | some duration =>
        if duration ≤ 0 then
          .ok (sess, Out.msgs [.validationError positiveMsg])
        else if 3600 < duration then
          .ok (sess, Out.msgs [.validationError tooLongMsg])
        else
          liftRun (pipeline s duration)
    else
      .ok (sess, Out.msgs [.dontUnderstand dontUnderstandMsg])

/-- `TelegramVideoBot` per-event step (surface A). -/
def stepA (env : PipeEnv) (uid : Nat) (sess : Option Session) :
    Event → Except Unit (Option Session × Out)
  | .start => .ok (sess, Out.msgs [.welcome])
  | .video ref sizeBytes =>
    let (s', rs) := handle_video_A sess ref sizeBytes
    .ok (s', Out.msgs rs)
  | .clipCmd =>
    if hasVideo sess then
      let (s', rs) := ask_for_duration_A sess
      .ok (s', Out.msgs rs)
    else .ok (sess, Out.msgs [.needVideoClip])
  | .callbackStartClip =>
    if hasVideo sess then
      let (s', rs) := ask_for_duration_A sess
      .ok (s', Out.msgs rs)
    else .ok (sess, Out.msgs [.needVideoCb])
  | .callbackAbout => .ok (sess, Out.msgs [])
  | .callbackSettings => .ok (sess, Out.msgs [])
  | .text t =>
    handle_text_gen msgInvalidNumberA msgMustBePositiveA msgTooLongA
      msgDontUnderstandA (process_video_A env uid) sess t

/-- `LargeFileHandler` per-event step (surface B). -/
def stepB (env : PipeEnv) (uid : Nat) (sess : Option Session) :
    Event → Except Unit (Option Session × Out)
  | .start => .ok (sess, Out.msgs [.welcome])
  | .video ref sizeBytes =>
    let (s', rs) := handle_video_B sess ref sizeBytes
    .ok (s', Out.msgs rs)
  | .clipCmd =>
    if hasVideo sess then
      let (s', rs) := ask_for_duration_B sess
      .ok (s', Out.msgs rs)
    else .ok (sess, Out.msgs [.needVideoClip])
  | .callbackStartClip =>
    if hasVideo sess then
      let (s', rs) := ask_for_duration_B sess
      .ok (s', Out.msgs rs)
    else .ok (sess, Out.msgs [.needVideoCb])
  | .callbackAbout => .ok (sess, Out.msgs [.aboutInfo])
  | .callbackSettings => .ok (sess, Out.msgs [.settingsInfo])
  | .text t =>
    handle_text_gen msgInvalidNumberB msgMustBePositiveB msgTooLongB
      msgDontUnderstandB (process_video_B env uid) sess t

/-- Per-user reachable session entries of surface A: starting from "no entry"
and closed under arbitrary events under arbitrary environments. -/
inductive ReachableA : Option Session → Prop where
  | init : ReachableA none
  | step {s s' : Option Session} (env : PipeEnv) (uid : Nat) (ev : Event)
      (o : Out) :
      ReachableA s → stepA env uid s ev = .ok (s', o) → ReachableA s'

inductive ReachableB : Option Session → Prop where
  | init : ReachableB none
  | step {s s' : Option Session} (env : PipeEnv) (uid : Nat) (ev : Event)
      (o : Out) :
      ReachableB s → stepB env uid s ev = .ok (s', o) → ReachableB s'

/-- The data-model invariant: `state == AwaitingDuration` implies
`pendingArtifact != null`. -/
def SessionInv (s : Option Session) : Prop :=
  ∀ sess, s = some sess → sess.state = some .waiting_duration →
    sess.video_message ≠ none

/-! ## Helper lemmas: the string order and `pysorted` -/

theorem charsLe_total : ∀ a b : List Char, charsLe a b = true ∨ charsLe b a = true
  | [], b => by left; cases b <;> rfl
  | a :: as, [] => by right; rfl
  | a :: as, b :: bs => by
    rcases Nat.lt_trichotomy a.toNat b.toNat with h | h | h
    · left; simp [charsLe, h]
    · have : ¬ a.toNat < b.toNat := by omega
      have : ¬ b.toNat < a.toNat := by omega
      rcases charsLe_total as bs with ih | ih
      · left; simp [charsLe, ih]; omega
      · right; simp [charsLe, ih]; omega
    · right; simp [charsLe, h]

theorem charsLe_trans : ∀ {a b c : List Char},
    charsLe a b = true → charsLe b c = true → charsLe a c = true
  | [], _, c, _, _ => by cases c <;> rfl
  | a :: as, [], _, h, _ => by simp [charsLe] at h
  | a :: as, b :: bs, [], _, h => by simp [charsLe] at h
  | a :: as, b :: bs, c :: cs, h1, h2 => by
    simp only [charsLe] at h1 h2 ⊢
    by_cases hab : a.toNat < b.toNat <;> by_cases hbc : b.toNat < c.toNat <;>
      simp [hab, hbc] at h1 h2 <;>
      first
      | (simp [show a.toNat < c.toNat by omega])
      | (have hac : ¬ a.toNat < c.toNat := by omega
         have hca : ¬ c.toNat < a.toNat := by omega
         simp [hac, hca]
         exact charsLe_trans h1.2 h2.2)

theorem strLe_total (a b : String) : strLe a b = true ∨ strLe b a = true :=
  charsLe_total a.data b.data

theorem strLe_trans {a b c : String} (h1 : strLe a b = true)
    (h2 : strLe b c = true) : strLe a c = true :=
  charsLe_trans h1 h2

theorem mem_insertSorted {x y : String} :
    ∀ {l : List String}, y ∈ insertSorted x l → y = x ∨ y ∈ l
  | [], h => by simpa [insertSorted] using h
  | z :: zs, h => by
    by_cases hc : strLe x z = true
    · simp [insertSorted, hc] at h
      rcases h with h | h | h
      · exact .inl h
      · exact .inr (by simp [h])
      · exact .inr (by simp [h])
    · simp [insertSorted, hc] at h
      rcases h with h | h
      · exact .inr (by simp [h])
      · rcases mem_insertSorted h with h' | h'
        · exact .inl h'
        · exact .inr (by simp [h'])

theorem pairwise_insertSorted (x : String) :
    ∀ {l : List String}, l.Pairwise (fun a b => strLe a b = true) →
      (insertSorted x l).Pairwise (fun a b => strLe a b = true)
  | [], _ => by simp [insertSorted]
  | z :: zs, h => by
    rcases List.pairwise_cons.mp h with ⟨hz, hzs⟩
    by_cases hc : strLe x z = true
    · rw [insertSorted, if_pos hc]
      refine List.pairwise_cons.mpr ⟨?_, h⟩
      intro y hy
      rcases List.mem_cons.mp hy with rfl | hy
      · exact hc
      · exact strLe_trans hc (hz _ hy)
    · rw [insertSorted, if_neg hc]
      refine List.pairwise_cons.mpr ⟨?_, pairwise_insertSorted x hzs⟩
      intro y hy
      rcases mem_insertSorted hy with h' | hy'
      · rw [h']; exact (strLe_total x z).resolve_left hc
      · exact hz _ hy'

theorem pairwise_pysorted (l : List String) :
    (pysorted l).Pairwise (fun a b => strLe a b = true) := by
  induction l with
  | nil => simp [pysorted]
  | cons x xs ih => exact pairwise_insertSorted x ih

/-! ## Helper lemmas: decimal strings and `pyInt` -/

theorem digitChar_spec (d : Nat) (h : d < 10) :
    (digitChar d).isDigit = true ∧ (digitChar d).isWhitespace = false ∧
      digitVal (digitChar d) = d ∧ digitChar d ≠ '+' ∧ digitChar d ≠ '-' := by
  interval_cases d <;>
    exact ⟨by decide, by decide, by decide, by decide, by decide⟩

/-- A character of a decimal representation: a digit, not whitespace, not a
sign. -/
def GoodDigit (c : Char) : Prop :=
  c.isDigit = true ∧ c.isWhitespace = false ∧ c ≠ '+' ∧ c ≠ '-'

theorem decChars_good : ∀ n : Nat, decChars n ≠ [] ∧ ∀ c ∈ decChars n, GoodDigit c := by
  intro n
  induction n using Nat.strong_induction_on with
  | _ n ih =>
    rw [decChars]
    by_cases h : n < 10
    · have := digitChar_spec n h
      simp [h, GoodDigit]
      exact ⟨this.1, this.2.1, this.2.2.2.1, this.2.2.2.2⟩
    · have hd : n / 10 < n := Nat.div_lt_self (by omega) (by omega)
      have hm := digitChar_spec (n % 10) (Nat.mod_lt _ (by omega))
      rcases ih (n / 10) hd with ⟨hne, hall⟩
      simp [h, GoodDigit] at hall ⊢
      intro c hc
      rcases hc with hc | hc
      · exact hall c hc
      · rw [hc]
        exact ⟨hm.1, hm.2.1, hm.2.2.2.1, hm.2.2.2.2⟩

theorem foldl_decChars (n : Nat) : ∀ acc : Nat,
    (decChars n).foldl (fun a c => 10 * a + digitVal c) acc
      = acc * 10 ^ (decChars n).length + n := by
  induction n using Nat.strong_induction_on with
  | _ n ih =>
    intro acc
    rw [decChars]
    by_cases h : n < 10
    · simp [h, (digitChar_spec n h).2.2.1]
      ring
    · have hd : n / 10 < n := Nat.div_lt_self (by omega) (by omega)
      simp only [h, dif_neg, not_false_iff, List.foldl_append, List.foldl_cons,
        List.foldl_nil, List.length_append, List.length_cons, List.length_nil]
      rw [ih (n / 10) hd acc, (digitChar_spec (n % 10) (Nat.mod_lt _ (by omega))).2.2.1,
        pow_succ]
      have hnm : 10 * (n / 10) + n % 10 = n := Nat.div_add_mod n 10
      set k := 10 ^ (decChars (n / 10)).length with hk
      have hstep : 10 * (acc * k + n / 10) + n % 10
          = acc * (k * 10) + (10 * (n / 10) + n % 10) := by ring
      rw [hstep, hnm]

theorem pyUGo_digits : ∀ (ds : List Char) (acc : Nat),
    (∀ c ∈ ds, c.isDigit = true) →
      pyUGo ds acc = some (ds.foldl (fun a c => 10 * a + digitVal c) acc)
  | [], acc, _ => by simp [pyUGo]
  | [c], acc, h => by
    have hc : c.isDigit = true := h c (by simp)
    simp [pyUGo, hc]
  | c :: d :: rest, acc, h => by
    have hc : c.isDigit = true := h c (by simp)
    have ih := pyUGo_digits (d :: rest) (10 * acc + digitVal c)
      (fun x hx => h x (by simp at hx ⊢; tauto))
    simp only [pyUGo, hc, if_true, List.foldl_cons]
    exact ih

theorem pyUIntParse_decChars (n : Nat) : pyUIntParse (decChars n) = some n := by
  rcases decChars_good n with ⟨hne, hall⟩
  rcases hcs : decChars n with _ | ⟨c, rest⟩
  · exact absurd hcs hne
  · have hc : GoodDigit c := hall c (by rw [hcs]; simp)
    rw [pyUIntParse, if_pos hc.1,
      pyUGo_digits rest (digitVal c)
        (fun x hx => (hall x (by rw [hcs]; simp [hx])).1)]
    have := foldl_decChars n 0
    rw [hcs] at this
    simp at this
    rw [this]

theorem dropWhile_eq_self_of {p : Char → Bool} :
    ∀ l : List Char, (∀ c ∈ l, p c = false) → l.dropWhile p = l
  | [], _ => rfl
  | c :: rest, h => by
    rw [List.dropWhile_cons, if_neg (by simp [h c (by simp)])]

theorem stripChars_of_no_ws (l : List Char)
    (h : ∀ c ∈ l, c.isWhitespace = false) : stripChars l = l := by
  unfold stripChars
  rw [dropWhile_eq_self_of l h,
    dropWhile_eq_self_of l.reverse (fun c hc => h c (List.mem_reverse.mp hc)),
    List.reverse_reverse]

theorem pyInt_of_digits (cs : List Char) (hne : cs ≠ [])
    (hall : ∀ c ∈ cs, GoodDigit c) :
    pyInt (String.mk cs) = (pyUIntParse cs).map Int.ofNat := by
  obtain ⟨c, rest, rfl⟩ : ∃ c rest, cs = c :: rest := by
    cases cs with
    | nil => exact absurd rfl hne
    | cons c rest => exact ⟨c, rest, rfl⟩
  have hstrip : (pyStrip (String.mk (c :: rest))).data = c :: rest := by
    show stripChars (c :: rest) = c :: rest
    exact stripChars_of_no_ws _ (fun x hx => (hall x hx).2.1)
  have hc : GoodDigit c := hall c (by simp)
  rw [pyInt, hstrip]
  dsimp only
  rw [if_neg hc.2.2.1, if_neg hc.2.2.2]

theorem pyInt_decimalRepr (n : Nat) : pyInt (decimalRepr n) = some (n : Int) := by
  rcases decChars_good n with ⟨hne, hall⟩
  rw [decimalRepr, pyInt_of_digits (decChars n) hne hall, pyUIntParse_decChars]
  rfl

theorem pyInt_plus_decimalRepr (n : Nat) :
    pyInt ("+" ++ decimalRepr n) = some (n : Int) := by
  rcases decChars_good n with ⟨hne, hall⟩
  have hdata : ("+" ++ decimalRepr n).data = '+' :: decChars n := rfl
  have hstrip : (pyStrip ("+" ++ decimalRepr n)).data = '+' :: decChars n := by
    show stripChars ('+' :: decChars n) = '+' :: decChars n
    refine stripChars_of_no_ws _ ?_
    intro c hc
    rcases List.mem_cons.mp hc with rfl | hc
    · decide
    · exact (hall c hc).2.1
  rw [pyInt, hstrip]
  dsimp only
  rw [if_pos rfl, pyUIntParse_decChars]
  rfl

theorem stripChars_spaces (l : List Char) (hne : l ≠ [])
    (h : ∀ c ∈ l, c.isWhitespace = false) :
    stripChars (' ' :: (l ++ [' '])) = l := by
  unfold stripChars
  rw [List.dropWhile_cons, if_pos (by decide)]
  have h1 : List.dropWhile Char.isWhitespace (l ++ [' ']) = l ++ [' '] := by
    rcases l with _ | ⟨c, rest⟩
    · exact absurd rfl hne
    · rw [List.cons_append, List.dropWhile_cons, if_neg (by simp [h c (by simp)])]
  rw [h1, List.reverse_append]
  simp only [List.reverse_cons, List.reverse_nil, List.nil_append,
    List.singleton_append]
  rw [List.dropWhile_cons, if_pos (by decide),
    dropWhile_eq_self_of l.reverse (fun c hc => h c (List.mem_reverse.mp hc)),
    List.reverse_reverse]

theorem pyInt_spaces_decimalRepr (n : Nat) :
    pyInt (" " ++ decimalRepr n ++ " ") = some (n : Int) := by
  rcases decChars_good n with ⟨hne, hall⟩
  have hstrip : (pyStrip (" " ++ decimalRepr n ++ " ")).data = decChars n := by
    show stripChars ((" " ++ decimalRepr n ++ " ").data) = decChars n
    have hdata : (" " ++ decimalRepr n ++ " ").data = ' ' :: (decChars n ++ [' ']) := by
      simp [String.data_append, decimalRepr]
    rw [hdata]
    exact stripChars_spaces _ hne (fun c hc => (hall c hc).2.1)
  rcases hcs : decChars n with _ | ⟨c, rest⟩
  · exact absurd hcs hne
  · have hc : GoodDigit c := hall c (by rw [hcs]; simp)
    rw [pyInt, hstrip, hcs]
    dsimp only
    rw [if_neg hc.2.2.1, if_neg hc.2.2.2, ← hcs, pyUIntParse_decChars]
    rfl

/-! ## Helper lemmas: zero-padded clip names -/

theorem charsLe_cons_same (c : Char) (as bs : List Char) :
    charsLe (c :: as) (c :: bs) = charsLe as bs := by
  simp [charsLe]

/-- While all indices fit in the `%03d` padding, the lexicographic order of
clip names agrees with the numeric order of their segment indices. -/
theorem pad3_clipNameIdx_le {a b : String} (ha : isPad3ClipName a)
    (hb : isPad3ClipName b) (h : strLe a b = true) :
    clipNameIdx a ≤ clipNameIdx b := by
  obtain ⟨c2, c1, c0, hda, ⟨h2l, h2r⟩, ⟨h1l, h1r⟩, ⟨h0l, h0r⟩⟩ := ha
  obtain ⟨d2, d1, d0, hdb, ⟨g2l, g2r⟩, ⟨g1l, g1r⟩, ⟨g0l, g0r⟩⟩ := hb
  unfold strLe at h
  rw [hda, hdb, charsLe_cons_same, charsLe_cons_same, charsLe_cons_same,
    charsLe_cons_same, charsLe_cons_same] at h
  have key : c2.toNat < d2.toNat
      ∨ (c2.toNat = d2.toNat ∧ (c1.toNat < d1.toNat
        ∨ (c1.toNat = d1.toNat ∧ c0.toNat ≤ d0.toNat))) := by
    by_cases h2 : c2.toNat < d2.toNat
    · exact .inl h2
    · by_cases h2' : d2.toNat < c2.toNat
      · simp only [charsLe, if_neg h2, if_pos h2'] at h
        exact Bool.noConfusion h
      · refine .inr ⟨by omega, ?_⟩
        simp only [charsLe, if_neg h2, if_neg h2'] at h
        by_cases h1 : c1.toNat < d1.toNat
        · exact .inl h1
        · by_cases h1' : d1.toNat < c1.toNat
          · simp only [charsLe, if_neg h1, if_pos h1'] at h
            exact Bool.noConfusion h
          · refine .inr ⟨by omega, ?_⟩
            simp only [charsLe, if_neg h1, if_neg h1'] at h
            by_cases h0 : c0.toNat < d0.toNat
            · omega
            · by_cases h0' : d0.toNat < c0.toNat
              · simp only [charsLe, if_neg h0, if_pos h0'] at h
                exact Bool.noConfusion h
              · omega
  have hva : clipNameIdx a
      = 10 * (10 * (10 * 0 + (c2.toNat - 48)) + (c1.toNat - 48)) + (c0.toNat - 48) := by
    unfold clipNameIdx
    rw [hda]
    rfl
  have hvb : clipNameIdx b
      = 10 * (10 * (10 * 0 + (d2.toNat - 48)) + (d1.toNat - 48)) + (d0.toNat - 48) := by
    unfold clipNameIdx
    rw [hdb]
    rfl
  rw [hva, hvb]
  omega

/-! ## Helper lemmas: base names of produced paths -/

theorem takeWhile_append_stop {p : Char → Bool} :
    ∀ (l1 : List Char) {c : Char} (l2 : List Char),
      (∀ x ∈ l1, p x = true) → p c = false →
      (l1 ++ c :: l2).takeWhile p = l1
  | [], c, l2, _, hc => by simp [List.takeWhile_cons, hc]
  | x :: xs, c, l2, h, hc => by
    rw [List.cons_append, List.takeWhile_cons, if_pos (h x (by simp)),
      takeWhile_append_stop xs l2 (fun y hy => h y (by simp [hy])) hc]

theorem baseName_append (dir fn : String) (h : ∀ c ∈ fn.data, c ≠ '/') :
    baseName (dir ++ "/" ++ fn) = fn := by
  unfold baseName
  have hdata : (dir ++ "/" ++ fn).data = dir.data ++ '/' :: fn.data := by
    simp [String.data_append]
  rw [hdata, List.reverse_append]
  have hshape : ('/' :: fn.data).reverse ++ dir.data.reverse
      = fn.data.reverse ++ '/' :: dir.data.reverse := by
    simp
  rw [hshape, takeWhile_append_stop fn.data.reverse dir.data.reverse
      (fun y hy => by simp [h y (List.mem_reverse.mp hy)]) (by simp),
    List.reverse_reverse]

/-! ## Helper lemmas: the Segmentation Engine -/

theorem pad3_no_slash {fn : String} (h : isPad3ClipName fn) :
    ∀ c ∈ fn.data, c ≠ '/' := by
  obtain ⟨c2, c1, c0, hd, ⟨h2l, h2r⟩, ⟨h1l, h1r⟩, ⟨h0l, h0r⟩⟩ := h
  intro c hc
  rw [hd] at hc
  simp only [List.mem_cons, List.not_mem_nil, or_false] at hc
  rcases hc with rfl | rfl | rfl | rfl | rfl | rfl | rfl | rfl | rfl | rfl | rfl | rfl <;>
    first
    | decide
    | (intro heq; rw [heq] at h2l; exact absurd h2l (by decide))
    | (intro heq; rw [heq] at h1l; exact absurd h1l (by decide))
    | (intro heq; rw [heq] at h0l; exact absurd h0l (by decide))

theorem clip_names_sorted (env : ProcEnv) (dir : String) :
    (clip_names env dir).Pairwise (fun a b => strLe a b = true) :=
  List.Pairwise.filter _ (pairwise_pysorted env.listing)

theorem clip_names_sorted_idx (env : ProcEnv) (dir : String)
    (h : ∀ fn ∈ clip_names env dir, isPad3ClipName fn) :
    (clip_names env dir).Pairwise (fun a b => clipNameIdx a ≤ clipNameIdx b) := by
  refine List.Pairwise.imp_of_mem ?_ (clip_names_sorted env dir)
  intro a b ha hb hle
  exact pad3_clipNameIdx_le (h a ha) (h b hb) hle

theorem split_video_ok {env : ProcEnv} {input dir : String} {dur : Int}
    {l : List String} (h : split_video env input dir dur = .ok l) :
    env.returncode = 0 ∧ clip_names env dir ≠ []
      ∧ l = (clip_names env dir).map (fun fn => dir ++ "/" ++ fn) := by
  unfold split_video at h
  by_cases hr : env.returncode ≠ 0
  · rw [if_pos hr] at h; cases h
  · rw [if_neg hr] at h
    dsimp only at h
    by_cases hm : (clip_names env dir).map (fun fn => dir ++ "/" ++ fn) = []
    · rw [if_pos hm] at h; cases h
    · rw [if_neg hm] at h
      cases h
      refine ⟨by omega, ?_, rfl⟩
      intro hnil
      exact hm (by rw [hnil]; rfl)

theorem split_video_ok_mem {env : ProcEnv} {input dir : String} {dur : Int}
    {l : List String} (h : split_video env input dir dur = .ok l) :
    ∀ p ∈ l, env.fileExists p = true ∧ 0 < env.fileSize p := by
  obtain ⟨-, -, rfl⟩ := split_video_ok h
  intro p hp
  obtain ⟨fn, hfn, rfl⟩ := List.mem_map.mp hp
  have hpred := (List.mem_filter.mp hfn).2
  simp only [clip_pred, Bool.and_eq_true, decide_eq_true_eq] at hpred
  exact ⟨hpred.1.2, hpred.2⟩

theorem split_video_err_nonzero {env : ProcEnv} (input dir : String) (dur : Int)
    (h : env.returncode ≠ 0) :
    split_video env input dir dur = .error (ffmpegFailMsg env) := by
  unfold split_video
  rw [if_pos h]

theorem split_video_err_empty {env : ProcEnv} (input dir : String) (dur : Int)
    (h0 : env.returncode = 0) (h : clip_names env dir = []) :
    split_video env input dir dur = .error noClipsMsg := by
  unfold split_video
  rw [if_neg (by omega)]
  dsimp only
  rw [h]
  rfl

/-! ## Helper lemmas: the pipeline branches -/

theorem pvA_getFileFail {env : PipeEnv} (uid : Nat) (v : Nat) (st : Option Phase)
    (d : Int) {e : String} (h : env.getFileFail = some e) :
    process_video_A env uid ⟨some v, st⟩ d =
      .ok ⟨⟨some v, st⟩, [.statusInitial, .statusEdit (failEditA e)], [], []⟩ := by
  unfold process_video_A
  rw [h]

theorem pvA_downloadFail {env : PipeEnv} (uid : Nat) (v : Nat) (st : Option Phase)
    (d : Int) {e : String} (h1 : env.getFileFail = none)
    (h2 : env.downloadFail = some e) :
    process_video_A env uid ⟨some v, st⟩ d =
      .ok ⟨⟨some v, st⟩, [.statusInitial, .statusEdit (failEditA e)], [],
        cleanup_files env [env.tempPath]⟩ := by
  unfold process_video_A
  rw [h1, h2]

theorem pvA_splitFail {env : PipeEnv} (uid : Nat) (v : Nat) (st : Option Phase)
    (d : Int) {e : String} (h1 : env.getFileFail = none)
    (h2 : env.downloadFail = none)
    (h3 : split_video env.proc env.tempPath (output_dir_of uid) d = .error e) :
    process_video_A env uid ⟨some v, st⟩ d =
      .ok ⟨⟨some v, st⟩,
        [.statusInitial, .statusEdit statusDownloadDoneA, .statusEdit (failEditA e)],
        [⟨env.tempPath, output_dir_of uid, d⟩],
        cleanup_files env [env.tempPath]⟩ := by
  unfold process_video_A
  rw [h1, h2]
  dsimp only
  rw [h3]

theorem pvA_editFail {env : PipeEnv} (uid : Nat) (v : Nat) (st : Option Phase)
    (d : Int) {e : String} {clips : List String} (h1 : env.getFileFail = none)
    (h2 : env.downloadFail = none)
    (h3 : split_video env.proc env.tempPath (output_dir_of uid) d = .ok clips)
    (h4 : env.postSplitEditOk = some e) :
    process_video_A env uid ⟨some v, st⟩ d =
      .ok ⟨⟨some v, st⟩,
        [.statusInitial, .statusEdit statusDownloadDoneA, .statusEdit (failEditA e)],
        [⟨env.tempPath, output_dir_of uid, d⟩],
        cleanup_files env [env.tempPath]⟩ := by
  unfold process_video_A
  rw [h1, h2]
  dsimp only
  rw [h3, h4]

theorem pvA_ok {env : PipeEnv} (uid : Nat) (v : Nat) (st : Option Phase)
    (d : Int) {clips : List String} (h1 : env.getFileFail = none)
    (h2 : env.downloadFail = none)
    (h3 : split_video env.proc env.tempPath (output_dir_of uid) d = .ok clips)
    (h4 : env.postSplitEditOk = none) :
    process_video_A env uid ⟨some v, st⟩ d =
      .ok ⟨⟨none, some .idle⟩,
        [.statusInitial, .statusEdit statusDownloadDoneA, .statusEdit statusSplitDoneA]
          ++ uploadReplies env.sendOk statusProgressA d clips.length 1 clips
          ++ [.statusEdit (statusCompleteA clips.length)],
        [⟨env.tempPath, output_dir_of uid, d⟩],
        cleanup_files env (env.tempPath :: clips)⟩ := by
  unfold process_video_A
  rw [h1, h2]
  dsimp only
  rw [h3, h4]

theorem pvB_downloadFail {env : PipeEnv} (uid : Nat) (v : Nat) (st : Option Phase)
    (d : Int) {e : String} (h2 : env.downloadFail = some e) :
    process_video_B env uid ⟨some v, st⟩ d =
      .ok ⟨⟨some v, st⟩, [.statusInitial, .statusEdit (failEditB e)], [],
        if env.tempPath = "" then [] else cleanup_files env [env.tempPath]⟩ := by
  unfold process_video_B
  rw [h2]

theorem pvB_splitFail {env : PipeEnv} (uid : Nat) (v : Nat) (st : Option Phase)
    (d : Int) {e : String} (h2 : env.downloadFail = none)
    (h3 : split_video env.proc env.tempPath (output_dir_of uid) d = .error e) :
    process_video_B env uid ⟨some v, st⟩ d =
      .ok ⟨⟨some v, st⟩,
        [.statusInitial, .statusEdit statusDownloadDoneB, .statusEdit (failEditB e)],
        [⟨env.tempPath, output_dir_of uid, d⟩],
        if env.tempPath = "" then [] else cleanup_files env [env.tempPath]⟩ := by
  unfold process_video_B
  rw [h2]
  dsimp only
  rw [h3]

theorem pvB_editFail {env : PipeEnv} (uid : Nat) (v : Nat) (st : Option Phase)
    (d : Int) {e : String} {clips : List String} (h2 : env.downloadFail = none)
    (h3 : split_video env.proc env.tempPath (output_dir_of uid) d = .ok clips)
    (h4 : env.postSplitEditOk = some e) :
    process_video_B env uid ⟨some v, st⟩ d =
      .ok ⟨⟨some v, st⟩,
        [.statusInitial, .statusEdit statusDownloadDoneB, .statusEdit (failEditB e)],
        [⟨env.tempPath, output_dir_of uid, d⟩],
        if env.tempPath = "" then [] else cleanup_files env [env.tempPath]⟩ := by
  unfold process_video_B
  rw [h2]
  dsimp only
  rw [h3, h4]

theorem pvB_ok {env : PipeEnv} (uid : Nat) (v : Nat) (st : Option Phase)
    (d : Int) {clips : List String} (h2 : env.downloadFail = none)
    (h3 : split_video env.proc env.tempPath (output_dir_of uid) d = .ok clips)
    (h4 : env.postSplitEditOk = none) :
    process_video_B env uid ⟨some v, st⟩ d =
      .ok ⟨⟨none, some .idle⟩,
        [.statusInitial, .statusEdit statusDownloadDoneB, .statusEdit statusSplitDoneB]
          ++ uploadReplies env.sendOk statusProgressB d clips.length 1 clips
          ++ [.statusEdit (statusCompleteB clips.length)],
        [⟨env.tempPath, output_dir_of uid, d⟩],
        cleanup_files env (env.tempPath :: clips)⟩ := by
  unfold process_video_B
  rw [h2]
  dsimp only
  rw [h3, h4]

/-! ## Helper lemmas: `_handle_text` and the step functions -/

section HandleText

variable {m1 m2 m3 m4 : String} {pipe : Session → Int → Except Unit RunResult}
  {s : Session} {t : String}

theorem htg_none :
    handle_text_gen m1 m2 m3 m4 pipe none t = .ok (none, Out.msgs [.needVideoStart]) :=
  rfl

theorem htg_notWaiting (hs : ¬ s.state = some .waiting_duration) :
    handle_text_gen m1 m2 m3 m4 pipe (some s) t
      = .ok (some s, Out.msgs [.dontUnderstand m4]) := by
  unfold handle_text_gen
  dsimp only
  rw [if_neg hs]

theorem htg_parseFail (hs : s.state = some .waiting_duration)
    (hp : pyInt t = none) :
    handle_text_gen m1 m2 m3 m4 pipe (some s) t
      = .ok (some s, Out.msgs [.validationError m1]) := by
  unfold handle_text_gen
  dsimp only
  rw [if_pos hs, hp]

theorem htg_nonpos {d : Int} (hs : s.state = some .waiting_duration)
    (hp : pyInt t = some d) (hd : d ≤ 0) :
    handle_text_gen m1 m2 m3 m4 pipe (some s) t
      = .ok (some s, Out.msgs [.validationError m2]) := by
  unfold handle_text_gen
  dsimp only
  rw [if_pos hs, hp]
  dsimp only
  rw [if_pos hd]

theorem htg_tooLong {d : Int} (hs : s.state = some .waiting_duration)
    (hp : pyInt t = some d) (hd1 : ¬ d ≤ 0) (hd2 : 3600 < d) :
    handle_text_gen m1 m2 m3 m4 pipe (some s) t
      = .ok (some s, Out.msgs [.validationError m3]) := by
  unfold handle_text_gen
  dsimp only
  rw [if_pos hs, hp]
  dsimp only
  rw [if_neg hd1, if_pos hd2]

theorem htg_valid {d : Int} (hs : s.state = some .waiting_duration)
    (hp : pyInt t = some d) (hd1 : ¬ d ≤ 0) (hd2 : ¬ 3600 < d) :
    handle_text_gen m1 m2 m3 m4 pipe (some s) t = liftRun (pipe s d) := by
  unfold handle_text_gen
  dsimp only
  rw [if_pos hs, hp]
  dsimp only
  rw [if_neg hd1, if_neg hd2]

end HandleText

theorem stepA_text {env : PipeEnv} {uid : Nat} {sess : Option Session} {t : String} :
    stepA env uid sess (.text t)
      = handle_text_gen msgInvalidNumberA msgMustBePositiveA msgTooLongA
          msgDontUnderstandA (process_video_A env uid) sess t := rfl

theorem stepB_text {env : PipeEnv} {uid : Nat} {sess : Option Session} {t : String} :
    stepB env uid sess (.text t)
      = handle_text_gen msgInvalidNumberB msgMustBePositiveB msgTooLongB
          msgDontUnderstandB (process_video_B env uid) sess t := rfl

/-! ## Helper lemmas: the session invariant -/

theorem process_video_A_session {env : PipeEnv} {uid : Nat} {sess : Session}
    {d : Int} {r : RunResult} (h : process_video_A env uid sess d = .ok r) :
    r.session = sess ∨ r.session = ⟨none, some .idle⟩ := by
  unfold process_video_A at h
  rcases hv : sess.video_message with - | v <;> rw [hv] at h
  · cases h
  · rcases h1 : env.getFileFail with - | e <;> rw [h1] at h
    · rcases h2 : env.downloadFail with - | e <;> rw [h2] at h
      · dsimp only at h
        rcases h3 : split_video env.proc env.tempPath (output_dir_of uid) d
          with e | clips <;> rw [h3] at h
        · cases h; left; rfl
        · rcases h4 : env.postSplitEditOk with - | e <;> rw [h4] at h
          · cases h; right; rfl
          · cases h; left; rfl
      · cases h; left; rfl
    · cases h; left; rfl

theorem process_video_B_session {env : PipeEnv} {uid : Nat} {sess : Session}
    {d : Int} {r : RunResult} (h : process_video_B env uid sess d = .ok r) :
    r.session = sess ∨ r.session = ⟨none, some .idle⟩ := by
  unfold process_video_B at h
  rcases hv : sess.video_message with - | v <;> rw [hv] at h
  · cases h
  · rcases h2 : env.downloadFail with - | e <;> rw [h2] at h
    · dsimp only at h
      rcases h3 : split_video env.proc env.tempPath (output_dir_of uid) d
        with e | clips <;> rw [h3] at h
      · cases h; left; rfl
      · rcases h4 : env.postSplitEditOk with - | e <;> rw [h4] at h
        · cases h; right; rfl
        · cases h; left; rfl
    · cases h; left; rfl

theorem stepA_preserves_inv {env : PipeEnv} {uid : Nat} {s s' : Option Session}
    {ev : Event} {o : Out} (h : stepA env uid s ev = .ok (s', o))
    (hinv : SessionInv s) : SessionInv s' := by
  cases ev with
  | start => cases h; exact hinv
  | video ref sizeBytes =>
    unfold stepA handle_video_A at h
    dsimp only at h
    by_cases hsz : max_size_A < sizeBytes
    · rw [if_pos hsz] at h; cases h; exact hinv
    · rw [if_neg hsz] at h
      cases h
      intro sess hs hw
      cases hs
      simp
  | clipCmd =>
    unfold stepA at h
    dsimp only at h
    by_cases hv : hasVideo s = true
    · rw [if_pos hv] at h
      rcases hs0 : s with - | s0 <;> rw [hs0] at h <;>
        unfold ask_for_duration_A at h <;> cases h
      · intro sess hs hw; cases hs
      · intro sess hs hw
        cases hs
        unfold hasVideo at hv
        rw [hs0] at hv
        simp at hv ⊢
        exact Option.isSome_iff_ne_none.mp hv
    · rw [if_neg hv] at h; cases h; exact hinv
  | callbackStartClip =>
    unfold stepA at h
    dsimp only at h
    by_cases hv : hasVideo s = true
    · rw [if_pos hv] at h
      rcases hs0 : s with - | s0 <;> rw [hs0] at h <;>
        unfold ask_for_duration_A at h <;> cases h
      · intro sess hs hw; cases hs
      · intro sess hs hw
        cases hs
        unfold hasVideo at hv
        rw [hs0] at hv
        simp at hv ⊢
        exact Option.isSome_iff_ne_none.mp hv
    · rw [if_neg hv] at h; cases h; exact hinv
  | callbackAbout => cases h; exact hinv
  | callbackSettings => cases h; exact hinv
  | text t =>
    rw [stepA_text] at h
    rcases hs0 : s with - | s0 <;> rw [hs0] at h
    · cases h; intro sess hs hw; cases hs
    · unfold handle_text_gen at h
      dsimp only at h
      by_cases hw0 : s0.state = some Phase.waiting_duration
      · rw [if_pos hw0] at h
        rcases hp : pyInt t with - | d <;> rw [hp] at h
        · cases h; rw [← hs0]; exact hinv
        · dsimp only at h
          by_cases hd1 : d ≤ 0
          · rw [if_pos hd1] at h; cases h; rw [← hs0]; exact hinv
          · rw [if_neg hd1] at h
            by_cases hd2 : (3600 : Int) < d
            · rw [if_pos hd2] at h; cases h; rw [← hs0]; exact hinv
            · rw [if_neg hd2] at h
              rcases hr : process_video_A env uid s0 d with e | r
              · rw [hr] at h
                exact absurd h (by simp [liftRun])
              rw [hr] at h
              unfold liftRun at h
              cases h
              rcases process_video_A_session hr with hsame | hidle
              · intro sess hs hw
                cases hs
                rw [hsame] at hw ⊢
                exact hinv s0 hs0 hw
              · intro sess hs hw
                cases hs
                rw [hidle] at hw
                cases hw
      · rw [if_neg hw0] at h; cases h; rw [← hs0]; exact hinv

theorem stepB_preserves_inv {env : PipeEnv} {uid : Nat} {s s' : Option Session}
    {ev : Event} {o : Out} (h : stepB env uid s ev = .ok (s', o))
    (hinv : SessionInv s) : SessionInv s' := by
  cases ev with
  | start => cases h; exact hinv
  | video ref sizeBytes =>
    unfold stepB handle_video_B at h
    dsimp only at h
    cases h
    intro sess hs hw
    cases hs
    simp
  | clipCmd =>
    unfold stepB at h
    dsimp only at h
    by_cases hv : hasVideo s = true
    · rw [if_pos hv] at h
      rcases hs0 : s with - | s0 <;> rw [hs0] at h
      · rw [hs0] at hv
        simp [hasVideo] at hv
      · unfold ask_for_duration_B at h
        cases h
        intro sess hs hw
        cases hs
        unfold hasVideo at hv
        rw [hs0] at hv
        simp at hv ⊢
        exact Option.isSome_iff_ne_none.mp hv
    · rw [if_neg hv] at h; cases h; exact hinv
  | callbackStartClip =>
    unfold stepB at h
    dsimp only at h
    by_cases hv : hasVideo s = true
    · rw [if_pos hv] at h
      rcases hs0 : s with - | s0 <;> rw [hs0] at h
      · rw [hs0] at hv
        simp [hasVideo] at hv
      · unfold ask_for_duration_B at h
        cases h
        intro sess hs hw
        cases hs
        unfold hasVideo at hv
        rw [hs0] at hv
        simp at hv ⊢
        exact Option.isSome_iff_ne_none.mp hv
    · rw [if_neg hv] at h; cases h; exact hinv
  | callbackAbout => cases h; exact hinv
  | callbackSettings => cases h; exact hinv
  | text t =>
    rw [stepB_text] at h
    rcases hs0 : s with - | s0 <;> rw [hs0] at h
    · cases h; intro sess hs hw; cases hs
    · unfold handle_text_gen at h
      dsimp only at h
      by_cases hw0 : s0.state = some Phase.waiting_duration
      · rw [if_pos hw0] at h
        rcases hp : pyInt t with - | d <;> rw [hp] at h
        · cases h; rw [← hs0]; exact hinv
        · dsimp only at h
          by_cases hd1 : d ≤ 0
          · rw [if_pos hd1] at h; cases h; rw [← hs0]; exact hinv
          · rw [if_neg hd1] at h
            by_cases hd2 : (3600 : Int) < d
            · rw [if_pos hd2] at h; cases h; rw [← hs0]; exact hinv
            · rw [if_neg hd2] at h
              rcases hr : process_video_B env uid s0 d with e | r
              · rw [hr] at h
                exact absurd h (by simp [liftRun])
              rw [hr] at h
              unfold liftRun at h
              cases h
              rcases process_video_B_session hr with hsame | hidle
              · intro sess hs hw
                cases hs
                rw [hsame] at hw ⊢
                exact hinv s0 hs0 hw
              · intro sess hs hw
                cases hs
                rw [hidle] at hw
                cases hw
      · rw [if_neg hw0] at h; cases h; rw [← hs0]; exact hinv

/-- The specific rejection reply `_handle_text` sends on surface A when the
user has no stored video: "send a video first" when the user has no entry,
"don't understand" otherwise (any reachable entry without a video is not in
`waiting_duration`). -/
def rejectionReplyA : Option Session → Reply
  | none => .needVideoStart
  | some _ => .dontUnderstand msgDontUnderstandA

def rejectionReplyB : Option Session → Reply
  | none => .needVideoStart
  | some _ => .dontUnderstand msgDontUnderstandB

/-- A benign concrete environment used to instantiate theorems at concrete
inputs: one nonempty clip in the output directory, every external call
succeeds. -/
def baseProc : ProcEnv :=
  { returncode := 0, stderr := "", listing := ["clip_000.mp4"],
    fileExists := fun _ => true, fileSize := fun _ => 1 }

def baseEnv : PipeEnv :=
  { tempPath := "/tmp/in.mp4", getFileFail := none, downloadFail := none,
    proc := baseProc, postSplitEditOk := none, sendOk := fun _ => true,
    cleanupExists := fun _ => true, unlinkOk := fun _ => true }

theorem reachableA_inv {s : Option Session} (h : ReachableA s) : SessionInv s := by
  induction h with
  | init => intro sess hs; cases hs
  | step env uid ev o hr heq ih => exact stepA_preserves_inv heq ih

theorem reachableB_inv {s : Option Session} (h : ReachableB s) : SessionInv s := by
  induction h with
  | init => intro sess hs; cases hs
  | step env uid ev o hr heq ih => exact stepB_preserves_inv heq ih

/-- Full characterization of a surface-A run: which engine calls it issues,
and its final session and deletions on the success and failure paths. -/
theorem pvA_full {env : PipeEnv} {uid : Nat} {v : Nat} {st : Option Phase}
    {d : Int} {r : RunResult}
    (h : process_video_A env uid ⟨some v, st⟩ d = .ok r) :
    (∀ req ∈ r.engineCalls, req = ⟨env.tempPath, output_dir_of uid, d⟩)
    ∧ (runSucceededA env uid d →
        ∃ clips, split_video env.proc env.tempPath (output_dir_of uid) d = .ok clips
          ∧ r.session = ⟨none, some .idle⟩
          ∧ r.engineCalls = [⟨env.tempPath, output_dir_of uid, d⟩]
          ∧ r.deleted = cleanup_files env (env.tempPath :: clips))
    ∧ (¬ runSucceededA env uid d →
        r.session = ⟨some v, st⟩ ∧ r.deleted ⊆ [env.tempPath]) := by
  rcases h1 : env.getFileFail with - | e
  · rcases h2 : env.downloadFail with - | e
    · rcases h3 : split_video env.proc env.tempPath (output_dir_of uid) d with e | clips
      · rw [pvA_splitFail uid v st d h1 h2 h3] at h
        cases h
        refine ⟨by simp, ?_, ?_⟩
        · intro hrun
          unfold runSucceededA at hrun
          rw [h3] at hrun
          simp [Except.isOk, Except.toBool] at hrun
        · intro _
          refine ⟨rfl, ?_⟩
          show cleanup_files env [env.tempPath] ⊆ [env.tempPath]
          unfold cleanup_files
          exact List.filter_subset' _
      · rcases h4 : env.postSplitEditOk with - | e
        · rw [pvA_ok uid v st d h1 h2 h3 h4] at h
          cases h
          refine ⟨by simp, fun _ => ⟨clips, rfl, rfl, rfl, rfl⟩, ?_⟩
          intro hn
          refine absurd ?_ hn
          unfold runSucceededA
          exact ⟨h1, h2, by rw [h3]; rfl, h4⟩
        · rw [pvA_editFail uid v st d h1 h2 h3 h4] at h
          cases h
          refine ⟨by simp, ?_,
            fun _ => ⟨rfl, by unfold cleanup_files; exact List.filter_subset' _⟩⟩
          intro hrun
          unfold runSucceededA at hrun
          rw [h4] at hrun
          exact Option.noConfusion hrun.2.2.2
    · rw [pvA_downloadFail uid v st d h1 h2] at h
      cases h
      refine ⟨by simp, ?_,
        fun _ => ⟨rfl, by unfold cleanup_files; exact List.filter_subset' _⟩⟩
      intro hrun
      unfold runSucceededA at hrun
      rw [h2] at hrun
      exact Option.noConfusion hrun.2.1
  · rw [pvA_getFileFail uid v st d h1] at h
    cases h
    refine ⟨by simp, ?_, fun _ => ⟨rfl, by simp⟩⟩
    intro hrun
    unfold runSucceededA at hrun
    rw [h1] at hrun
    exact Option.noConfusion hrun.1

/-- Full characterization of a surface-B run. -/
theorem pvB_full {env : PipeEnv} {uid : Nat} {v : Nat} {st : Option Phase}
    {d : Int} {r : RunResult}
    (h : process_video_B env uid ⟨some v, st⟩ d = .ok r) :
    (∀ req ∈ r.engineCalls, req = ⟨env.tempPath, output_dir_of uid, d⟩)
    ∧ (runSucceededB env uid d →
        ∃ clips, split_video env.proc env.tempPath (output_dir_of uid) d = .ok clips
          ∧ r.session = ⟨none, some .idle⟩
          ∧ r.engineCalls = [⟨env.tempPath, output_dir_of uid, d⟩]
          ∧ r.deleted = cleanup_files env (env.tempPath :: clips))
    ∧ (¬ runSucceededB env uid d →
        r.session = ⟨some v, st⟩ ∧ r.deleted ⊆ [env.tempPath]) := by
  have hsub : (if env.tempPath = "" then []
      else cleanup_files env [env.tempPath]) ⊆ [env.tempPath] := by
    by_cases he : env.tempPath = ""
    · simp [he]
    · rw [if_neg he]
      exact List.filter_subset' _
  rcases h2 : env.downloadFail with - | e
  · rcases h3 : split_video env.proc env.tempPath (output_dir_of uid) d with e | clips
    · rw [pvB_splitFail uid v st d h2 h3] at h
      cases h
      refine ⟨by simp, ?_, fun _ => ⟨rfl, hsub⟩⟩
      intro hrun
      unfold runSucceededB at hrun
      rw [h3] at hrun
      simp [Except.isOk, Except.toBool] at hrun
    · rcases h4 : env.postSplitEditOk with - | e
      · rw [pvB_ok uid v st d h2 h3 h4] at h
        cases h
        refine ⟨by simp, fun _ => ⟨clips, rfl, rfl, rfl, rfl⟩, ?_⟩
        intro hn
        refine absurd ?_ hn
        unfold runSucceededB
        exact ⟨h2, by rw [h3]; rfl, h4⟩
      · rw [pvB_editFail uid v st d h2 h3 h4] at h
        cases h
        refine ⟨by simp, ?_, fun _ => ⟨rfl, hsub⟩⟩
        intro hrun
        unfold runSucceededB at hrun
        rw [h4] at hrun
        exact Option.noConfusion hrun.2.2
  · rw [pvB_downloadFail uid v st d h2] at h
    cases h
    refine ⟨by simp, ?_, fun _ => ⟨rfl, hsub⟩⟩
    intro hrun
    unfold runSucceededB at hrun
    rw [h2] at hrun
    exact Option.noConfusion hrun.1

/-! ## Claims -/

/-- C8: On surface A (the 20 MB standard handler), a received video whose
`sizeBytes` exceeds `20*1024*1024` is rejected with a size-exceeded reply and
the session is left completely unchanged (no artifact stored, no state
change, no engine call, no deletion), while a video of size at or below the
threshold is accepted: its reference is stored as the pending artifact and
the state becomes VideoReceived (`"video_uploaded"`). -/
theorem C8_size_limit (env : PipeEnv) (uid : Nat) (sess : Option Session)
    (ref sizeBytes : Nat) :
    (20 * 1024 * 1024 < sizeBytes →
      stepA env uid sess (.video ref sizeBytes)
        = .ok (sess, Out.msgs [.fileTooLarge]))
    ∧ (sizeBytes ≤ 20 * 1024 * 1024 →
      stepA env uid sess (.video ref sizeBytes)
        = .ok (some ⟨some ref, some .video_uploaded⟩,
            Out.msgs [.videoReceived ref])) := by
  constructor
  · intro h
    unfold stepA handle_video_A
    dsimp only
    rw [if_pos (show max_size_A < sizeBytes from h)]
  · intro h
    unfold stepA handle_video_A
    dsimp only
    rw [if_neg (show ¬ max_size_A < sizeBytes from by unfold max_size_A; omega)]

theorem C8_witness :
    (stepA baseEnv 1 none (.video 5 20971521) = .ok (none, Out.msgs [.fileTooLarge]))
    ∧ (stepA baseEnv 1 none (.video 5 20971519)
        = .ok (some ⟨some 5, some .video_uploaded⟩, Out.msgs [.videoReceived 5])) :=
  ⟨(C8_size_limit baseEnv 1 none 5 20971521).1 (by norm_num),
   (C8_size_limit baseEnv 1 none 5 20971519).2 (by norm_num)⟩

/-- C9: On both surfaces, a second video received while the user's state is
AwaitingDuration (`"waiting_duration"`) overwrites the entry: the pending
artifact is replaced by the new video's reference, the state becomes
`"video_uploaded"` (not a reset — the state is not cleared to Idle and the
artifact is not dropped), and the only message sent is the standard
video-received confirmation, with no acknowledgment that the prior pending
flow was cancelled.  (On surface A this holds for any accepted size.) -/
theorem C9_second_video (env : PipeEnv) (uid : Nat) (v1 v2 sizeBytes : Nat)
    (hsize : sizeBytes ≤ 20 * 1024 * 1024) :
    (stepA env uid (some ⟨some v1, some .waiting_duration⟩) (.video v2 sizeBytes)
      = .ok (some ⟨some v2, some .video_uploaded⟩, Out.msgs [.videoReceived v2]))
    ∧ (∀ sizeB : Nat,
        stepB env uid (some ⟨some v1, some .waiting_duration⟩) (.video v2 sizeB)
          = .ok (some ⟨some v2, some .video_uploaded⟩, Out.msgs [.videoReceived v2]))
    ∧ (some Phase.video_uploaded ≠ some Phase.idle
        ∧ (some v2 : Option Nat) ≠ none) := by
  refine ⟨?_, ?_, by simp, by simp⟩
  · unfold stepA handle_video_A
    dsimp only
    rw [if_neg (show ¬ max_size_A < sizeBytes from by unfold max_size_A; omega)]
  · intro sizeB
    rfl

theorem C9_witness :
    (stepA baseEnv 4 (some ⟨some 10, some .waiting_duration⟩) (.video 11 100)
      = .ok (some ⟨some 11, some .video_uploaded⟩, Out.msgs [.videoReceived 11]))
    ∧ (stepB baseEnv 4 (some ⟨some 10, some .waiting_duration⟩) (.video 11 100)
      = .ok (some ⟨some 11, some .video_uploaded⟩, Out.msgs [.videoReceived 11])) :=
  ⟨(C9_second_video baseEnv 4 10 11 100 (by norm_num)).1,
   (C9_second_video baseEnv 4 10 11 100 (by norm_num)).2.1 100⟩

/-- C5: On both surfaces, free text received in AwaitingDuration that does
not parse as an integer, or parses outside `[1, 3600]`, leaves the session
entry unchanged, invokes no Segmentation Engine call and deletes no file,
and the reply distinguishes the failure: the surface's non-numeric message
on a parse failure, its "must be positive" message for a value `≤ 0`, its
"too long" message for a value `> 3600`; the three messages of each surface
are pairwise distinct. -/
theorem C5_validation (env : PipeEnv) (uid : Nat) (s : Session) (t : String)
    (hs : s.state = some .waiting_duration) :
    (pyInt t = none →
      stepA env uid (some s) (.text t)
          = .ok (some s, Out.msgs [.validationError msgInvalidNumberA])
        ∧ stepB env uid (some s) (.text t)
          = .ok (some s, Out.msgs [.validationError msgInvalidNumberB]))
    ∧ (∀ d : Int, pyInt t = some d → d ≤ 0 →
      stepA env uid (some s) (.text t)
          = .ok (some s, Out.msgs [.validationError msgMustBePositiveA])
        ∧ stepB env uid (some s) (.text t)
          = .ok (some s, Out.msgs [.validationError msgMustBePositiveB]))
    ∧ (∀ d : Int, pyInt t = some d → 3600 < d →
      stepA env uid (some s) (.text t)
          = .ok (some s, Out.msgs [.validationError msgTooLongA])
        ∧ stepB env uid (some s) (.text t)
          = .ok (some s, Out.msgs [.validationError msgTooLongB]))
    ∧ (msgInvalidNumberA ≠ msgMustBePositiveA ∧ msgInvalidNumberA ≠ msgTooLongA
        ∧ msgMustBePositiveA ≠ msgTooLongA)
    ∧ (msgInvalidNumberB ≠ msgMustBePositiveB ∧ msgInvalidNumberB ≠ msgTooLongB
        ∧ msgMustBePositiveB ≠ msgTooLongB) := by
  refine ⟨?_, ?_, ?_, ⟨by decide, by decide, by decide⟩, ⟨by decide, by decide, by decide⟩⟩
  · intro hp
    exact ⟨by rw [stepA_text, htg_parseFail hs hp],
           by rw [stepB_text, htg_parseFail hs hp]⟩
  · intro d hp hd
    exact ⟨by rw [stepA_text, htg_nonpos hs hp hd],
           by rw [stepB_text, htg_nonpos hs hp hd]⟩
  · intro d hp hd
    have hd1 : ¬ d ≤ 0 := by omega
    exact ⟨by rw [stepA_text, htg_tooLong hs hp hd1 hd],
           by rw [stepB_text, htg_tooLong hs hp hd1 hd]⟩

theorem C5_witness :
    (stepA baseEnv 1 (some ⟨some 5, some .waiting_duration⟩) (.text "sixty")
      = .ok (some ⟨some 5, some .waiting_duration⟩,
          Out.msgs [.validationError msgInvalidNumberA]))
    ∧ (stepB baseEnv 1 (some ⟨some 5, some .waiting_duration⟩) (.text "-5")
      = .ok (some ⟨some 5, some .waiting_duration⟩,
          Out.msgs [.validationError msgMustBePositiveB]))
    ∧ (stepA baseEnv 1 (some ⟨some 5, some .waiting_duration⟩) (.text "3601")
      = .ok (some ⟨some 5, some .waiting_duration⟩,
          Out.msgs [.validationError msgTooLongA])) :=
  ⟨((C5_validation baseEnv 1 ⟨some 5, some .waiting_duration⟩ "sixty" rfl).1
      (by decide)).1,
   (((C5_validation baseEnv 1 ⟨some 5, some .waiting_duration⟩ "-5" rfl).2.1
      (-5) (by decide) (by decide))).2,
   (((C5_validation baseEnv 1 ⟨some 5, some .waiting_duration⟩ "3601" rfl).2.2.1
      3601 (by decide) (by decide))).1⟩

/-- C2: For every reachable per-user session (on either surface),
`state == "waiting_duration"` implies a stored `"video_message"`; and a valid
duration text (an integer in `[1, 3600]`) processed while the session has no
stored video reference is answered with a single rejection reply, the
session is left unchanged, and the handler returns normally (no uncaught
`KeyError` — the `.error` crash outcome does not occur). -/
theorem C2_invariant (s : Option Session) :
    (ReachableA s → SessionInv s)
    ∧ (ReachableB s → SessionInv s)
    ∧ (∀ (env : PipeEnv) (uid : Nat) (t : String) (d : Int),
        ReachableA s → (∀ sess, s = some sess → sess.video_message = none) →
        pyInt t = some d → 1 ≤ d → d ≤ 3600 →
        stepA env uid s (.text t) = .ok (s, Out.msgs [rejectionReplyA s]))
    ∧ (∀ (env : PipeEnv) (uid : Nat) (t : String) (d : Int),
        ReachableB s → (∀ sess, s = some sess → sess.video_message = none) →
        pyInt t = some d → 1 ≤ d → d ≤ 3600 →
        stepB env uid s (.text t) = .ok (s, Out.msgs [rejectionReplyB s])) := by
  refine ⟨reachableA_inv, reachableB_inv, ?_, ?_⟩
  · intro env uid t d hreach hnov hp h1 h2
    rcases s with - | sess
    · rfl
    · have hnw : ¬ sess.state = some .waiting_duration := by
        intro hw
        exact reachableA_inv hreach sess rfl hw (hnov sess rfl)
      rw [stepA_text, htg_notWaiting hnw]
      rfl
  · intro env uid t d hreach hnov hp h1 h2
    rcases s with - | sess
    · rfl
    · have hnw : ¬ sess.state = some .waiting_duration := by
        intro hw
        exact reachableB_inv hreach sess rfl hw (hnov sess rfl)
      rw [stepB_text, htg_notWaiting hnw]
      rfl

theorem C2_witness :
    stepA baseEnv 1 none (.text "60") = .ok (none, Out.msgs [rejectionReplyA none])
    ∧ stepB baseEnv 1 none (.text "60") = .ok (none, Out.msgs [rejectionReplyB none]) :=
  ⟨(C2_invariant none).2.2.1 baseEnv 1 "60" 60 .init (fun sess hs => by cases hs)
      (by decide) (by decide) (by decide),
   (C2_invariant none).2.2.2 baseEnv 1 "60" 60 .init (fun sess hs => by cases hs)
      (by decide) (by decide) (by decide)⟩

/-- C10 (implicit): duration input goes through `int(text.strip())`, so the
accepted inputs are strictly more than the literal decimal strings: for
every `n` in `[1, 3600]`, both `"+<n>"` and `" <n> "` parse to `n`
(`"+<n>"` is not the literal decimal string of any number), and sending them
in AwaitingDuration starts the processing pipeline with duration `n`. -/
theorem C10_lenient_parse (n : Nat) (h1 : 1 ≤ n) (h2 : n ≤ 3600) :
    pyInt ("+" ++ decimalRepr n) = some (n : Int)
    ∧ pyInt (" " ++ decimalRepr n ++ " ") = some (n : Int)
    ∧ (∀ k : Nat, ("+" ++ decimalRepr n) ≠ decimalRepr k)
    ∧ (∀ (env : PipeEnv) (uid : Nat) (v : Nat),
        stepA env uid (some ⟨some v, some .waiting_duration⟩)
            (.text ("+" ++ decimalRepr n))
          = liftRun (process_video_A env uid ⟨some v, some .waiting_duration⟩ (n : Int))
        ∧ stepB env uid (some ⟨some v, some .waiting_duration⟩)
            (.text (" " ++ decimalRepr n ++ " "))
          = liftRun (process_video_B env uid ⟨some v, some .waiting_duration⟩ (n : Int))) := by
  have h1' : (1 : Int) ≤ (n : Int) := by exact_mod_cast h1
  have h2' : (n : Int) ≤ 3600 := by exact_mod_cast h2
  have hd1 : ¬ (n : Int) ≤ 0 := by omega
  have hd2 : ¬ (3600 : Int) < (n : Int) := by omega
  refine ⟨pyInt_plus_decimalRepr n, pyInt_spaces_decimalRepr n, ?_, ?_⟩
  · intro k hk
    have hdata := congrArg String.data hk
    rw [String.data_append] at hdata
    rcases decChars_good k with ⟨hne, hall⟩
    rcases hcs : decChars k with - | ⟨c, rest⟩
    · exact hne hcs
    · have hck : '+' :: decChars n = c :: rest := by
        simpa [decimalRepr, hcs] using hdata
      injection hck with hc1 hc2
      exact (hall c (by rw [hcs]; simp)).2.2.1 hc1.symm
  · intro env uid v
    constructor
    · rw [stepA_text, htg_valid rfl (pyInt_plus_decimalRepr n) hd1 hd2]
    · rw [stepB_text, htg_valid rfl (pyInt_spaces_decimalRepr n) hd1 hd2]

theorem C10_witness :
    pyInt ("+" ++ decimalRepr 60) = some (60 : Int)
    ∧ stepA baseEnv 2 (some ⟨some 7, some .waiting_duration⟩)
        (.text ("+" ++ decimalRepr 60))
      = liftRun (process_video_A baseEnv 2 ⟨some 7, some .waiting_duration⟩ 60) :=
  ⟨(C10_lenient_parse 60 (by norm_num) (by norm_num)).1,
   ((C10_lenient_parse 60 (by norm_num) (by norm_num)).2.2.2 baseEnv 2 7).1⟩

/-- A pipeline environment whose download step fails. -/
def dlFailEnv : PipeEnv := { baseEnv with downloadFail := some "x" }

def cexEnvC1 : PipeEnv :=
  { baseEnv with tempPath := "/tmp/c1.mp4", downloadFail := some "Connection reset" }

/-- C1 counterexample: a download failure on surface B returns normally from
the pipeline but leaves the session exactly as it was — state still
`"waiting_duration"` (not Idle) and the stored artifact still present (not
cleared).  The error path of `_process_video` has no state reset. -/
theorem C1_counterexample :
    process_video_B cexEnvC1 9 ⟨some 4, some .waiting_duration⟩ 30
      = .ok ⟨⟨some 4, some .waiting_duration⟩,
          [.statusInitial, .statusEdit (failEditB "Connection reset")], [],
          ["/tmp/c1.mp4"]⟩
    ∧ some Phase.waiting_duration ≠ some Phase.idle
    ∧ (some 4 : Option Nat) ≠ none := by
  exact ⟨by decide, by decide, by decide⟩

/-- C1 (amended): after a *successful* run the session is reset to Idle with
the artifact cleared, on both surfaces; after a failed run (download
failure, segmentation failure, or a failed status edit after the split) the
session entry is returned exactly as it was — a user who was in
AwaitingDuration stays in AwaitingDuration with `pendingArtifact` still set
(they can retry by sending a new duration or a new video, but no reset
happens). -/
theorem C1_amended (env : PipeEnv) (uid v : Nat) (st : Option Phase) (d : Int) :
    (∀ r, process_video_A env uid ⟨some v, st⟩ d = .ok r →
      (runSucceededA env uid d → r.session = ⟨none, some .idle⟩)
      ∧ (¬ runSucceededA env uid d → r.session = ⟨some v, st⟩))
    ∧ (∀ r, process_video_B env uid ⟨some v, st⟩ d = .ok r →
      (runSucceededB env uid d → r.session = ⟨none, some .idle⟩)
      ∧ (¬ runSucceededB env uid d → r.session = ⟨some v, st⟩)) := by
  constructor
  · intro r h
    have hf := pvA_full h
    constructor
    · intro hr
      obtain ⟨c, -, hs, -, -⟩ := hf.2.1 hr
      exact hs
    · intro hn
      exact (hf.2.2 hn).1
  · intro r h
    have hf := pvB_full h
    constructor
    · intro hr
      obtain ⟨c, -, hs, -, -⟩ := hf.2.1 hr
      exact hs
    · intro hn
      exact (hf.2.2 hn).1

theorem C1_witness :
    (⟨⟨some 8, some .waiting_duration⟩,
      [.statusInitial, .statusEdit (failEditA "x")], [],
      ["/tmp/in.mp4"]⟩ : RunResult).session = ⟨some 8, some .waiting_duration⟩ :=
  ((C1_amended dlFailEnv 1 8 (some .waiting_duration) 60).1
    ⟨⟨some 8, some .waiting_duration⟩,
      [.statusInitial, .statusEdit (failEditA "x")], [], ["/tmp/in.mp4"]⟩
    (by decide)).2 (by decide)

/-- C4 counterexample: with `n = 60` and a failing download, the literal
decimal text `"60"` in AwaitingDuration runs the pipeline, but the
Segmentation Engine is never invoked (`engineCalls = []`) and the state
after the run is still AwaitingDuration, not Idle. -/
theorem C4_counterexample :
    stepA dlFailEnv 7 (some ⟨some 3, some .waiting_duration⟩) (.text "60")
      = .ok (some ⟨some 3, some .waiting_duration⟩,
          ⟨[.statusInitial, .statusEdit (failEditA "x")], [], ["/tmp/in.mp4"]⟩)
    ∧ some Phase.waiting_duration ≠ some Phase.idle := by
  exact ⟨by decide, by decide⟩

/-- C4 (amended): for every `n` in `[1, 3600]`, the literal decimal string
of `n` received in AwaitingDuration starts the processing pipeline with
duration `n` on both surfaces; every Segmentation Engine invocation of that
run carries `segmentDurationSeconds = n` (and on a successful run the engine
is invoked exactly once); after a successful run the state is Idle, while a
failed run leaves the session in AwaitingDuration. -/
theorem C4_amended (n : Nat) (h1 : 1 ≤ n) (h2 : n ≤ 3600) (env : PipeEnv)
    (uid v : Nat) :
    (stepA env uid (some ⟨some v, some .waiting_duration⟩) (.text (decimalRepr n))
      = liftRun (process_video_A env uid ⟨some v, some .waiting_duration⟩ (n : Int)))
    ∧ (stepB env uid (some ⟨some v, some .waiting_duration⟩) (.text (decimalRepr n))
      = liftRun (process_video_B env uid ⟨some v, some .waiting_duration⟩ (n : Int)))
    ∧ (∀ r, process_video_A env uid ⟨some v, some .waiting_duration⟩ (n : Int) = .ok r →
        (∀ req ∈ r.engineCalls, req.segment_duration = (n : Int))
        ∧ (runSucceededA env uid (n : Int) →
            r.session = ⟨none, some .idle⟩
            ∧ r.engineCalls = [⟨env.tempPath, output_dir_of uid, (n : Int)⟩])
        ∧ (¬ runSucceededA env uid (n : Int) →
            r.session = ⟨some v, some .waiting_duration⟩))
    ∧ (∀ r, process_video_B env uid ⟨some v, some .waiting_duration⟩ (n : Int) = .ok r →
        (∀ req ∈ r.engineCalls, req.segment_duration = (n : Int))
        ∧ (runSucceededB env uid (n : Int) →
            r.session = ⟨none, some .idle⟩
            ∧ r.engineCalls = [⟨env.tempPath, output_dir_of uid, (n : Int)⟩])
        ∧ (¬ runSucceededB env uid (n : Int) →
            r.session = ⟨some v, some .waiting_duration⟩)) := by
  have h1' : (1 : Int) ≤ (n : Int) := by exact_mod_cast h1
  have h2' : (n : Int) ≤ 3600 := by exact_mod_cast h2
  have hp := pyInt_decimalRepr n
  refine ⟨?_, ?_, ?_, ?_⟩
  · rw [stepA_text, htg_valid rfl hp (by omega) (by omega)]
  · rw [stepB_text, htg_valid rfl hp (by omega) (by omega)]
  · intro r h
    have hf := pvA_full h
    refine ⟨fun req hreq => by rw [hf.1 req hreq], fun hr => ?_,
      fun hn => (hf.2.2 hn).1⟩
    obtain ⟨c, -, hs, he, -⟩ := hf.2.1 hr
    exact ⟨hs, he⟩
  · intro r h
    have hf := pvB_full h
    refine ⟨fun req hreq => by rw [hf.1 req hreq], fun hr => ?_,
      fun hn => (hf.2.2 hn).1⟩
    obtain ⟨c, -, hs, he, -⟩ := hf.2.1 hr
    exact ⟨hs, he⟩

theorem C4_witness :
    stepA baseEnv 3 (some ⟨some 9, some .waiting_duration⟩) (.text (decimalRepr 60))
      = liftRun (process_video_A baseEnv 3 ⟨some 9, some .waiting_duration⟩ (60 : Int)) :=
  (C4_amended 60 (by norm_num) (by norm_num) baseEnv 3 9).1

/-- A 250-character ffmpeg diagnostic. -/
def longErr : String := String.mk (List.replicate 250 'x')

def cexEnvC6 : PipeEnv :=
  { baseEnv with
      tempPath := "/tmp/c6.mp4"
      proc := { returncode := 1, stderr := longErr, listing := [],
                fileExists := fun _ => false, fileSize := fun _ => 0 } }

set_option maxRecDepth 4000 in
/-- C6 counterexample: a failing ffmpeg run whose raised error text exceeds
200 characters is shown on surface A interpolated verbatim
(`failEditA e` contains `e` itself), not the truncated form surface B would
display — surface A has no truncation. -/
theorem C6_counterexample :
    process_video_A cexEnvC6 3 ⟨some 6, some .waiting_duration⟩ 60
      = .ok ⟨⟨some 6, some .waiting_duration⟩,
          [.statusInitial, .statusEdit statusDownloadDoneA,
           .statusEdit (failEditA (ffmpegFailMsg cexEnvC6.proc))],
          [⟨"/tmp/c6.mp4", output_dir_of 3, 60⟩], ["/tmp/c6.mp4"]⟩
    ∧ 200 < pyLen (ffmpegFailMsg cexEnvC6.proc)
    ∧ failEditA (ffmpegFailMsg cexEnvC6.proc)
        ≠ failEditB (ffmpegFailMsg cexEnvC6.proc) := by
  exact ⟨by decide, by decide, by decide⟩

/-- C6 (amended): a non-zero exit of the external tool fails the invocation
with an error carrying the tool's stderr verbatim; the error text shown on
surface B is bounded (at most 200 characters plus an ellipsis marker, 203
total), but surface A interpolates the full error text with no truncation;
on both surfaces the failure status edit is the displayed error. -/
theorem C6_amended (env : ProcEnv) (input dir : String) (dur : Int) (e : String) :
    (env.returncode ≠ 0 →
      split_video env input dir dur = .error (ffmpegFailMsg env)
      ∧ (env.stderr ≠ "" →
          ffmpegFailMsg env
            = "Failed to process video: Video processing failed: " ++ env.stderr))
    ∧ pyLen (errDisplayB e) ≤ 203
    ∧ failEditB e = "❌ **Processing Failed!**\n\nError: " ++ errDisplayB e
    ∧ failEditA e = "❌ **Processing Failed!**\n\nError: " ++ e
    ∧ (∀ (penv : PipeEnv) (uid v : Nat) (st : Option Phase) (d : Int)
          (r : RunResult),
        penv.downloadFail = none →
        split_video penv.proc penv.tempPath (output_dir_of uid) d = .error e →
        process_video_B penv uid ⟨some v, st⟩ d = .ok r →
          Reply.statusEdit (failEditB e) ∈ r.replies)
    ∧ (∀ (penv : PipeEnv) (uid v : Nat) (st : Option Phase) (d : Int)
          (r : RunResult),
        penv.getFileFail = none → penv.downloadFail = none →
        split_video penv.proc penv.tempPath (output_dir_of uid) d = .error e →
        process_video_A penv uid ⟨some v, st⟩ d = .ok r →
          Reply.statusEdit (failEditA e) ∈ r.replies) := by
  refine ⟨?_, ?_, rfl, rfl, ?_, ?_⟩
  · intro hr
    refine ⟨split_video_err_nonzero input dir dur hr, ?_⟩
    intro hs
    unfold ffmpegFailMsg
    rw [if_neg hs]
  · unfold errDisplayB
    by_cases hlen : 200 < pyLen e
    · rw [if_pos hlen]
      show ((pySlice e 200 ++ "...").data).length ≤ 203
      rw [String.data_append]
      rw [List.length_append]
      have : (pySlice e 200).data.length ≤ 200 := by
        show (e.data.take 200).length ≤ 200
        simp [List.length_take]
      simp only [List.length_cons, List.length_nil]
      omega
    · rw [if_neg hlen]
      unfold pyLen at hlen ⊢
      omega
  · intro penv uid v st d r h2 h3 h
    rw [pvB_splitFail uid v st d h2 h3] at h
    cases h
    simp
  · intro penv uid v st d r h1 h2 h3 h
    rw [pvA_splitFail uid v st d h1 h2 h3] at h
    cases h
    simp

set_option maxRecDepth 4000 in
theorem C6_witness :
    split_video cexEnvC6.proc "/tmp/c6.mp4" "d" 60
        = .error (ffmpegFailMsg cexEnvC6.proc)
    ∧ pyLen (errDisplayB longErr) ≤ 203 :=
  ⟨((C6_amended cexEnvC6.proc "/tmp/c6.mp4" "d" 60 longErr).1 (by decide)).1,
   (C6_amended cexEnvC6.proc "/tmp/c6.mp4" "d" 60 longErr).2.1⟩

def cexEnvC7 : PipeEnv :=
  { baseEnv with
      tempPath := "/tmp/c7.mp4"
      postSplitEditOk := some "Edit failed" }

/-- C7 counterexample: the split succeeds and produces a clip that exists
and is deletable, but a fatal transport error afterwards takes the `except`
branch, whose cleanup passes only `[temp_path]` — the produced clip is not
deleted before the run ends. -/
theorem C7_counterexample :
    process_video_B cexEnvC7 2 ⟨some 5, some .waiting_duration⟩ 30
      = .ok ⟨⟨some 5, some .waiting_duration⟩,
          [.statusInitial, .statusEdit statusDownloadDoneB,
           .statusEdit (failEditB "Edit failed")],
          [⟨"/tmp/c7.mp4", output_dir_of 2, 30⟩], ["/tmp/c7.mp4"]⟩
    ∧ split_video cexEnvC7.proc "/tmp/c7.mp4" (output_dir_of 2) 30
        = .ok [output_dir_of 2 ++ "/" ++ "clip_000.mp4"]
    ∧ cexEnvC7.cleanupExists (output_dir_of 2 ++ "/" ++ "clip_000.mp4") = true
    ∧ cexEnvC7.unlinkOk (output_dir_of 2 ++ "/" ++ "clip_000.mp4") = true
    ∧ (output_dir_of 2 ++ "/" ++ "clip_000.mp4") ∉ ["/tmp/c7.mp4"] := by
  exact ⟨by decide, by decide, by decide, by decide, by decide⟩

/-- C7 (amended): on the success path the pipeline deletes, best-effort, the
input temp file and every produced clip (each file still existing whose
unlink succeeds is removed, independent of failures on the others); on the
failure path only the input temp file is cleaned — produced clips are not;
deletion outcomes are swallowed: they produce no reply and do not change the
final session, engine calls, or the deletion of the other files. -/
theorem C7_amended (env : PipeEnv) (uid v : Nat) (st : Option Phase) (d : Int) :
    (∀ r, process_video_A env uid ⟨some v, st⟩ d = .ok r →
      (runSucceededA env uid d →
        ∃ clips, split_video env.proc env.tempPath (output_dir_of uid) d = .ok clips
          ∧ r.deleted = cleanup_files env (env.tempPath :: clips))
      ∧ (¬ runSucceededA env uid d → r.deleted ⊆ [env.tempPath]))
    ∧ (∀ r, process_video_B env uid ⟨some v, st⟩ d = .ok r →
      (runSucceededB env uid d →
        ∃ clips, split_video env.proc env.tempPath (output_dir_of uid) d = .ok clips
          ∧ r.deleted = cleanup_files env (env.tempPath :: clips))
      ∧ (¬ runSucceededB env uid d → r.deleted ⊆ [env.tempPath]))
    ∧ (∀ (f g : String → Bool) (sess : Session),
        (process_video_A { env with cleanupExists := f, unlinkOk := g } uid sess d).map
            (fun r => (r.session, r.replies, r.engineCalls))
          = (process_video_A env uid sess d).map
              (fun r => (r.session, r.replies, r.engineCalls)))
    ∧ (∀ (f g : String → Bool) (sess : Session),
        (process_video_B { env with cleanupExists := f, unlinkOk := g } uid sess d).map
            (fun r => (r.session, r.replies, r.engineCalls))
          = (process_video_B env uid sess d).map
              (fun r => (r.session, r.replies, r.engineCalls)))
    ∧ (∀ (paths : List String) (p : String), p ∈ paths →
        env.cleanupExists p = true → env.unlinkOk p = true →
        p ∈ cleanup_files env paths) := by
  refine ⟨?_, ?_, ?_, ?_, ?_⟩
  · intro r h
    have hf := pvA_full h
    exact ⟨fun hr => by
        obtain ⟨c, hc, -, -, hd⟩ := hf.2.1 hr
        exact ⟨c, hc, hd⟩,
      fun hn => (hf.2.2 hn).2⟩
  · intro r h
    have hf := pvB_full h
    exact ⟨fun hr => by
        obtain ⟨c, hc, -, -, hd⟩ := hf.2.1 hr
        exact ⟨c, hc, hd⟩,
      fun hn => (hf.2.2 hn).2⟩
  · intro f g sess
    unfold process_video_A
    rcases sess.video_message with - | w
    · rfl
    · rcases env.getFileFail with - | e
      · rcases env.downloadFail with - | e
        · dsimp only
          rcases split_video env.proc env.tempPath (output_dir_of uid) d with e | clips
          · rfl
          · rcases env.postSplitEditOk with - | e <;> rfl
        · rfl
      · rfl
  · intro f g sess
    unfold process_video_B
    rcases sess.video_message with - | w
    · rfl
    · rcases env.downloadFail with - | e
      · dsimp only
        rcases split_video env.proc env.tempPath (output_dir_of uid) d with e | clips
        · rfl
        · rcases env.postSplitEditOk with - | e <;> rfl
      · rfl
  · intro paths p hp hc hu
    unfold cleanup_files
    refine List.mem_filter.mpr ⟨hp, ?_⟩
    rw [hc, hu]
    rfl

theorem C7_witness :
    (⟨⟨some 5, some .waiting_duration⟩,
      [.statusInitial, .statusEdit statusDownloadDoneB,
       .statusEdit (failEditB "Edit failed")],
      [⟨"/tmp/c7.mp4", output_dir_of 2, 30⟩], ["/tmp/c7.mp4"]⟩ : RunResult).deleted
      ⊆ ["/tmp/c7.mp4"] :=
  ((C7_amended cexEnvC7 2 5 (some .waiting_duration) 30).2.1
    ⟨⟨some 5, some .waiting_duration⟩,
      [.statusInitial, .statusEdit statusDownloadDoneB,
       .statusEdit (failEditB "Edit failed")],
      [⟨"/tmp/c7.mp4", output_dir_of 2, 30⟩], ["/tmp/c7.mp4"]⟩
    (by decide)).2 (by decide)

def cexProcC3 : ProcEnv :=
  { returncode := 0, stderr := "",
    listing := ["clip_100.mp4", "clip_1000.mp4", "clip_101.mp4"],
    fileExists := fun _ => true, fileSize := fun _ => 1 }

/-- C3 counterexample: the reconciliation sorts names lexicographically, and
with the fixed 3-digit padding this stops matching segment-index order past
index 999 (e.g. 1-second segments of a video over 1000 s long; the engine
also picks up such leftovers from a previous run, since failed runs do not
delete clips).  Here the returned list is `clip_100, clip_1000, clip_101` —
segment indices `100, 1000, 101`, not ascending. -/
theorem C3_counterexample :
    split_video cexProcC3 "in.mp4" "d" 1
      = .ok ["d/clip_100.mp4", "d/clip_1000.mp4", "d/clip_101.mp4"]
    ∧ List.map clipPathIdx ["d/clip_100.mp4", "d/clip_1000.mp4", "d/clip_101.mp4"]
        = [100, 1000, 101]
    ∧ ¬ List.Pairwise (fun a b => a ≤ b) [100, 1000, 101] := by
  exact ⟨by decide, by decide, by decide⟩

/-- C3 (amended): every normal return of `split_video` is nonempty, is the
directory's matching entries in lexicographic filename order, and every
listed path denotes an existing file of size > 0; the lexicographic order
coincides with ascending segment-index order whenever all matched names fit
the 3-digit zero-padded shape `clip_ddd.mp4` (at most 1000 segments); and
when the external tool exits 0 but zero usable files match, the call fails
with the "no clips were created" error instead of returning `[]`. -/
theorem C3_amended (env : ProcEnv) (input dir : String) (dur : Int) :
    (∀ l, split_video env input dir dur = .ok l →
      l ≠ []
      ∧ l = (clip_names env dir).map (fun fn => dir ++ "/" ++ fn)
      ∧ (∀ p ∈ l, env.fileExists p = true ∧ 0 < env.fileSize p)
      ∧ (clip_names env dir).Pairwise (fun a b => strLe a b = true)
      ∧ ((∀ fn ∈ clip_names env dir, isPad3ClipName fn) →
          l.Pairwise (fun a b => clipPathIdx a ≤ clipPathIdx b)))
    ∧ (env.returncode = 0 → clip_names env dir = [] →
        split_video env input dir dur = .error noClipsMsg) := by
  constructor
  · intro l h
    obtain ⟨hr, hne, hl⟩ := split_video_ok h
    refine ⟨?_, hl, split_video_ok_mem h, clip_names_sorted env dir, ?_⟩
    · rw [hl]
      simpa using hne
    · intro hpad
      have hbase : ∀ fn ∈ clip_names env dir,
          clipPathIdx (dir ++ "/" ++ fn) = clipNameIdx fn := by
        intro fn hfn
        unfold clipPathIdx
        rw [baseName_append dir fn (pad3_no_slash (hpad fn hfn))]
      rw [hl, List.pairwise_map]
      refine List.Pairwise.imp_of_mem ?_ (clip_names_sorted_idx env dir hpad)
      intro a b ha hb hab
      rw [hbase a ha, hbase b hb]
      exact hab
  · exact split_video_err_empty input dir dur

theorem C3_witness :
    (["d/clip_000.mp4"] : List String) ≠ []
    ∧ (∀ p ∈ (["d/clip_000.mp4"] : List String),
        baseProc.fileExists p = true ∧ 0 < baseProc.fileSize p) := by
  have h := (C3_amended baseProc "in.mp4" "d" 60).1 ["d/clip_000.mp4"] (by decide)
  exact ⟨h.1, h.2.2.1⟩

end V02
